import Mathlib

/-!
Verification development for the AI-bots4web discovery pipeline
(`script/scanner/site_scanner.py`, `script/scanner/link_extractor.py`,
`script/scanner/dom_distiller.py`, `script/analysis/asset_triager.py`).

The Python code is shallowly embedded: pure helpers become Lean functions,
the stateful crawl becomes explicit state passing over a `ScanState`, and the
browser / HTTP side effects are supplied by a `World` of response functions.
Python byte strings are modelled as `String`s of one-byte characters, so
`decode("utf-8")` is the identity on the ASCII inputs considered here.
-/

/-! ## Basic string helpers (models of Python `str` operations) -/

/-- `pat` occurs contiguously inside the character list.  Models Python `pat in s`. -/
def listContainsSub (pat : List Char) : List Char → Bool
  | [] => pat.isEmpty
  | c :: rest => pat.isPrefixOf (c :: rest) || listContainsSub pat rest

/-- Python `pat in s` on strings. -/
def strContains (s pat : String) : Bool :=
  listContainsSub pat.data s.data

/-- Python `s.startswith(pat)`. -/
def strStarts (s pat : String) : Bool :=
  pat.data.isPrefixOf s.data

/-- Python `s.endswith(pat)`. -/
def strEnds (s pat : String) : Bool :=
  pat.data.isSuffixOf s.data

/-- Python `s.strip(chars)`: drop characters of `cs` from both ends. -/
def stripChars (cs : List Char) (s : String) : String :=
  String.mk (((s.data.dropWhile (cs.contains ·)).reverse.dropWhile (cs.contains ·)).reverse)

/-- Python `s.lower()` (ASCII).  `String.toLower` itself is avoided: its
byte-position recursion does not reduce inside the kernel. -/
def pyLower (s : String) : String :=
  String.mk (s.data.map Char.toLower)

/-- Python `s.strip()` (ASCII whitespace). -/
def pyStrip (s : String) : String :=
  String.mk (((s.data.dropWhile Char.isWhitespace).reverse.dropWhile Char.isWhitespace).reverse)

/-- Python `s.split(sep)` for a one-character separator. -/
def splitOnCharAll (sep : Char) : List Char → List (List Char)
  | [] => [[]]
  | c :: r =>
    if c = sep then [] :: splitOnCharAll sep r
    else
      match splitOnCharAll sep r with
      | h :: t => (c :: h) :: t
      | [] => [[c]]

/-- Split a character list at the first occurrence of `t`:
returns the part before and the part after, when `t` occurs. -/
def splitOnceChar (t : Char) : List Char → Option (List Char × List Char)
  | [] => none
  | c :: r =>
    if c = t then some ([], r)
    else (splitOnceChar t r).map (fun p => (c :: p.1, p.2))

/-! ## urllib.parse model: `urlparse`, `urljoin`, `parse_qs`, `unquote` -/

/-- Result of `urllib.parse.urlparse` (the components used by the scanner). -/
structure UrlParts where
  scheme : String
  netloc : String
  path : String
  query : String
  fragment : String
deriving Repr, DecidableEq

def isSchemeChar (c : Char) : Bool :=
  c.isAlphanum || c = '+' || c = '-' || c = '.'

/-- Split off a `scheme:` part when the text before the first `:` is a valid scheme. -/
def splitScheme (cs : List Char) : Option (List Char × List Char) :=
  match splitOnceChar ':' cs with
  | none => none
  | some (before, after) =>
    match before with
    | [] => none
    | c :: rest => if c.isAlpha && rest.all isSchemeChar then some (before, after) else none

/-- Model of Python's `urlsplit`/`urlparse` for the URL shapes the scanner handles:
scheme, then `//netloc` up to `/?#`, then the fragment is split off at the first
`#` and the query at the first `?`. -/
def pyUrlparse (s : String) : UrlParts :=
  let (scheme, rest) :=
    match splitScheme s.data with
    | some (sc, rest) => (pyLower (String.mk sc), rest)
    | none => ("", s.data)
  let (netloc, rest) :=
    if ['/', '/'].isPrefixOf rest then
      let r := rest.drop 2
      (String.mk (r.takeWhile (fun c => c ≠ '/' && c ≠ '?' && c ≠ '#')),
       r.dropWhile (fun c => c ≠ '/' && c ≠ '?' && c ≠ '#'))
    else ("", rest)
  let (rest, fragment) :=
    match splitOnceChar '#' rest with
    | some (b, a) => (b, String.mk a)
    | none => (rest, "")
  let (path, query) :=
    match splitOnceChar '?' rest with
    | some (b, a) => (String.mk b, String.mk a)
    | none => (String.mk rest, "")
  ⟨scheme, netloc, path, query, fragment⟩

/-- Directory part of a path: everything up to and including the last `/`
(`/` when the path has no slash).  Used by the `urljoin` model. -/
def dirPart (p : String) : String :=
  if p.data.contains '/' then
    String.mk ((p.data.reverse.dropWhile (· ≠ '/')).reverse)
  else "/"

/-- Model of `urllib.parse.urljoin` for the cases exercised by the scanner:
absolute URLs are kept, protocol-relative and root-relative references are
resolved against the base origin, and other references are resolved against
the directory of the base path (no dot-segment normalisation). -/
def pyUrljoin (base url : String) : String :=
  if url = "" then base
  else if strStarts url "http://" || strStarts url "https://" then url
  else
    let b := pyUrlparse base
    if strStarts url "//" then b.scheme ++ ":" ++ url
    else if strStarts url "/" then b.scheme ++ "://" ++ b.netloc ++ url
    else b.scheme ++ "://" ++ b.netloc ++ dirPart b.path ++ url

def hexVal (c : Char) : Option Nat :=
  if '0' ≤ c ∧ c ≤ '9' then some (c.toNat - '0'.toNat)
  else if 'a' ≤ c ∧ c ≤ 'f' then some (c.toNat - 'a'.toNat + 10)
  else if 'A' ≤ c ∧ c ≤ 'F' then some (c.toNat - 'A'.toNat + 10)
  else none

/-- Core of Python `unquote_plus` (as used by `parse_qs`): `+` becomes a space
and `%XX` percent-escapes are decoded; malformed escapes are kept literally. -/
def unquotePlusCore : List Char → List Char
  | [] => []
  | '+' :: r => ' ' :: unquotePlusCore r
  | '%' :: a :: b :: r =>
    match hexVal a, hexVal b with
    | some x, some y => Char.ofNat (16 * x + y) :: unquotePlusCore r
    | _, _ => '%' :: unquotePlusCore (a :: b :: r)
  | c :: r => c :: unquotePlusCore r

def pyUnquotePlus (s : String) : String :=
  String.mk (unquotePlusCore s.data)

/-- Model of `urllib.parse.parse_qsl` with default options: fields are split on
`&`, fields without `=` or with an empty value are dropped, names and values
are unquoted. -/
def pyParseQsl (qs : String) : List (String × String) :=
  ((splitOnCharAll '&' qs.data).map String.mk).filterMap fun field =>
    if field = "" then none
    else
      match splitOnceChar '=' field.data with
      | none => none
      | some (n, v) =>
        if v = [] then none
        else some (pyUnquotePlus (String.mk n), pyUnquotePlus (String.mk v))

/-- Append `v` to the multidict entry for `k` (insertion order preserved). -/
def addMulti : List (String × List String) → String → String → List (String × List String)
  | [], k, v => [(k, [v])]
  | (k', vs) :: rest, k, v =>
    if k' = k then (k', vs ++ [v]) :: rest else (k', vs) :: addMulti rest k v

/-- Model of `urllib.parse.parse_qs`: group the `parse_qsl` pairs by key. -/
def pyParseQs (qs : String) : List (String × List String) :=
  (pyParseQsl qs).foldl (fun acc p => addMulti acc p.1 p.2) []

/-! ## `script/scanner/link_extractor.py`: `JsLinkExtractor` -/

/-- The character class of both extraction regexes:
`[a-zA-Z0-9\-\._~:/?#\[\]@!$&'()*+,;=%]`. -/
def urlBodyChar (c : Char) : Bool :=
  c.isAlphanum || "-._~:/?#[]@!$&'()*+,;=%".data.contains c

def aposChar : Char := Char.ofNat 39

def backquoteChar : Char := Char.ofNat 96

/-- The delimiter class of `REGEX_PATH`: `'`, `"` or a backquote. -/
def isQuoteChar (c : Char) : Bool :=
  c = aposChar || c = '"' || c = backquoteChar

/-- Try to match `REGEX_URL` (`https?://[...]+`) at the head of `cs`.
Returns the matched text and the remaining characters. -/
def matchUrlAt (cs : List Char) : Option (List Char × List Char) :=
  if "http://".data.isPrefixOf cs then
    let after := cs.drop 7
    let run := after.takeWhile urlBodyChar
    if run.isEmpty then none
    else some ("http://".data ++ run, after.dropWhile urlBodyChar)
  else if "https://".data.isPrefixOf cs then
    let after := cs.drop 8
    let run := after.takeWhile urlBodyChar
    if run.isEmpty then none
    else some ("https://".data ++ run, after.dropWhile urlBodyChar)
  else none

/-- `re.findall(REGEX_URL, ·)`: scan left to right, continuing after each match. -/
def scanUrls : Nat → List Char → List String
  | 0, _ => []
  | _, [] => []
  | fuel + 1, c :: rest =>
    match matchUrlAt (c :: rest) with
    | some (m, after) => String.mk m :: scanUrls fuel after
    | none => scanUrls fuel rest

def findFullUrls (content : String) : List String :=
  scanUrls content.data.length content.data

/-- Position (0-based) of the last quote character in the list, if any. -/
def lastQuotePos : List Char → Option Nat
  | [] => none
  | c :: r =>
    match lastQuotePos r with
    | some k => some (k + 1)
    | none => if isQuoteChar c then some 0 else none

/-- Try to match `REGEX_PATH` (`['"`](/[...]+)['"`]`) at the head of `cs`,
with the greedy-then-backtrack semantics of the Python regex: the inner run
is maximal, then shrinks until the next character is a quote.  Returns the
captured group (the path, without quotes) and the characters after the match. -/
def matchPathAt (cs : List Char) : Option (List Char × List Char) :=
  match cs with
  | q :: '/' :: rest =>
    if isQuoteChar q then
      let run := rest.takeWhile urlBodyChar
      let rest' := rest.dropWhile urlBodyChar
      match rest' with
      | c :: tail =>
        if isQuoteChar c ∧ ¬ run.isEmpty then some ('/' :: run, tail)
        else
          match (lastQuotePos (run.drop 1)).map (· + 1) with
          | some k => some ('/' :: run.take k, run.drop (k + 1) ++ rest')
          | none => none
      | [] =>
        match (lastQuotePos (run.drop 1)).map (· + 1) with
        | some k => some ('/' :: run.take k, run.drop (k + 1))
        | none => none
    else none
  | _ => none

/-- `re.findall(REGEX_PATH, ·)` returning the captured groups. -/
def scanPaths : Nat → List Char → List String
  | 0, _ => []
  | _, [] => []
  | fuel + 1, c :: rest =>
    match matchPathAt (c :: rest) with
    | some (g, after) => String.mk g :: scanPaths fuel after
    | none => scanPaths fuel rest

def quotedPathsIn (content : String) : List String :=
  scanPaths content.data.length content.data

/-- `JsLinkExtractor.IGNORED_EXTENSIONS`. -/
def ignoredExtensions : List String :=
  [".png", ".jpg", ".jpeg", ".gif", ".svg", ".css", ".js", ".ico",
   ".woff", ".woff2", ".ttf", ".eot", ".mp4", ".mp3", ".pdf"]

/-- `JsLinkExtractor.IGNORED_PREFIXES` (denylisted pseudo-MIME path starts). -/
def ignoredStarts : List String :=
  ["/app/", "/application/", "/text/", "/image/", "/video/", "/audio/", "//"]

/-- `path[path.rfind('.'):]` when the path contains a dot. -/
def lastDotSuffix (p : String) : Option String :=
  if p.data.contains '.' then
    some (String.mk ('.' :: (p.data.reverse.takeWhile (· ≠ '.')).reverse))
  else none

/-- `JsLinkExtractor._is_noise`. -/
def isNoise (path : String) : Bool :=
  let p := pyLower path
  if p.length < 2 then true
  else if ignoredStarts.any (fun pre => strStarts p pre) then true
  else if (match lastDotSuffix p with
           | some ext => ignoredExtensions.contains ext
           | none => false) then true
  else if p.data.contains '\n' || p.data.contains '<' || p.data.contains '>'
       || p.data.contains (Char.ofNat 123) then true
  else false

/-- `JsLinkExtractor._is_valid_url`. -/
def isValidUrl (url : String) : Bool :=
  let parsed := pyUrlparse url
  parsed.scheme ≠ "" && parsed.netloc ≠ ""

/-- Insert into a duplicate-free list (model of `set.add`). -/
def setInsert (l : List String) (x : String) : List String :=
  if l.contains x then l else l ++ [x]

def setInsertAll (l : List String) (xs : List String) : List String :=
  xs.foldl setInsert l

/-- Part A of `JsLinkExtractor.extract_links`: full-URL matches, each stripped of
surrounding `'",;)` characters and kept when it parses as a valid URL. -/
def extractLinksA (content : String) : List String :=
  (findFullUrls content).filterMap fun m =>
    let cleanUrl := stripChars "'\",;)".data m
    if isValidUrl cleanUrl then some cleanUrl else none

/-- The fate of one quoted-path candidate in `extract_links`: dropped when
`_is_noise`, else joined onto the base URL and kept when valid. -/
def quotedPathLink (base : String) (p : String) : Option String :=
  if isNoise p then none
  else
    let absoluteUrl := pyUrljoin base p
    if isValidUrl absoluteUrl then some absoluteUrl else none

/-- Part B of `JsLinkExtractor.extract_links`: quoted-path matches, filtered by
`_is_noise`, joined onto the base URL and kept when valid. -/
def extractLinksB (content base : String) : List String :=
  (quotedPathsIn content).filterMap (quotedPathLink base)

/-- `JsLinkExtractor.extract_links` (the returned `set` is modelled as a
duplicate-free list; membership is what the crawler consumes). -/
def extractLinks (content base : String) : List String :=
  setInsertAll (setInsertAll [] (extractLinksA content)) (extractLinksB content base)

/-! ## Minimal JSON model (for `json.loads(...).keys()` on request bodies) -/

def openBraceChar : Char := Char.ofNat 123

def closeBraceChar : Char := Char.ofNat 125

def jsonWsChar (c : Char) : Bool :=
  c = ' ' || c = '\t' || c = '\n' || c = '\r'

def skipWs (l : List Char) : List Char :=
  l.dropWhile jsonWsChar

def jsonEscChar : Char → Option Char
  | '"' => some '"'
  | '\\' => some '\\'
  | '/' => some '/'
  | 'b' => some (Char.ofNat 8)
  | 'f' => some (Char.ofNat 12)
  | 'n' => some '\n'
  | 'r' => some '\r'
  | 't' => some '\t'
  | _ => none

/-- Parse the body of a JSON string literal (after the opening quote).
Returns the decoded content and the characters after the closing quote. -/
def parseJsonStringBody : Nat → List Char → Option (List Char × List Char)
  | 0, _ => none
  | _, [] => none
  | fuel + 1, c :: r =>
    if c = '"' then some ([], r)
    else if c = '\\' then
      match r with
      | [] => none
      | e :: r' =>
        if e = 'u' then
          match r' with
          | a :: b :: c2 :: d :: r'' =>
            match hexVal a, hexVal b, hexVal c2, hexVal d with
            | some x1, some x2, some x3, some x4 =>
              (parseJsonStringBody fuel r'').map
                (fun p => (Char.ofNat (4096 * x1 + 256 * x2 + 16 * x3 + x4) :: p.1, p.2))
            | _, _, _, _ => none
          | _ => none
        else
          match jsonEscChar e with
          | some ec => (parseJsonStringBody fuel r').map (fun p => (ec :: p.1, p.2))
          | none => none
    else (parseJsonStringBody fuel r).map (fun p => (c :: p.1, p.2))

def headIsDigit : List Char → Bool
  | c :: _ => c.isDigit
  | [] => false

/-- Parse a JSON number at the head of the list, returning the rest. -/
def parseJsonNumber (l : List Char) : Option (List Char) :=
  let l1 := match l with | '-' :: r => r | _ => l
  match l1 with
  | [] => none
  | c :: r =>
    if c = '0' ∨ c.isDigit then
      let l2 := if c = '0' then r else l1.dropWhile Char.isDigit
      let l3 : Option (List Char) :=
        match l2 with
        | '.' :: r2 => if headIsDigit r2 then some (r2.dropWhile Char.isDigit) else none
        | _ => some l2
      match l3 with
      | none => none
      | some l3 =>
        match l3 with
        | 'e' :: r3 =>
          let r4 := match r3 with | '+' :: rr => rr | '-' :: rr => rr | _ => r3
          if headIsDigit r4 then some (r4.dropWhile Char.isDigit) else none
        | 'E' :: r3 =>
          let r4 := match r3 with | '+' :: rr => rr | '-' :: rr => rr | _ => r3
          if headIsDigit r4 then some (r4.dropWhile Char.isDigit) else none
        | _ => some l3
    else none

mutual

/-- Parse any JSON value, returning the characters after it. -/
def parseJsonValue : Nat → List Char → Option (List Char)
  | 0, _ => none
  | fuel + 1, l =>
    match skipWs l with
    | [] => none
    | c :: r =>
      if c = '"' then (parseJsonStringBody (fuel + 1) r).map (·.2)
      else if c = openBraceChar then (parseJsonObjRest fuel r).map (·.2)
      else if c = '[' then parseJsonArrRest fuel r
      else if "true".data.isPrefixOf (c :: r) then some ((c :: r).drop 4)
      else if "false".data.isPrefixOf (c :: r) then some ((c :: r).drop 5)
      else if "null".data.isPrefixOf (c :: r) then some ((c :: r).drop 4)
      else parseJsonNumber (c :: r)

/-- Parse the rest of a JSON object (after the opening brace): returns its
top-level keys and the characters after the closing brace. -/
def parseJsonObjRest : Nat → List Char → Option (List String × List Char)
  | 0, _ => none
  | fuel + 1, l =>
    match skipWs l with
    | [] => none
    | c :: r =>
      if c = closeBraceChar then some ([], r)
      else parseJsonPairs fuel (c :: r)

/-- Parse one or more `"key": value` pairs followed by the closing brace. -/
def parseJsonPairs : Nat → List Char → Option (List String × List Char)
  | 0, _ => none
  | fuel + 1, l =>
    match skipWs l with
    | [] => none
    | c :: r =>
      if c = '"' then
        match parseJsonStringBody (fuel + 1) r with
        | some (key, rest) =>
          match skipWs rest with
          | ':' :: rest2 =>
            (match parseJsonValue fuel rest2 with
             | some rest3 =>
               match skipWs rest3 with
               | ',' :: rest4 =>
                 (parseJsonPairs fuel rest4).map (fun p => (String.mk key :: p.1, p.2))
               | c2 :: rest4 =>
                 if c2 = closeBraceChar then some ([String.mk key], rest4) else none
               | [] => none
             | none => none)
          | _ => none
        | none => none
      else none

/-- Parse the rest of a JSON array (after the opening bracket). -/
def parseJsonArrRest : Nat → List Char → Option (List Char)
  | 0, _ => none
  | fuel + 1, l =>
    match skipWs l with
    | [] => none
    | c :: r =>
      if c = ']' then some r
      else parseJsonElems fuel (c :: r)

/-- Parse one or more array elements followed by the closing bracket. -/
def parseJsonElems : Nat → List Char → Option (List Char)
  | 0, _ => none
  | fuel + 1, l =>
    match parseJsonValue fuel l with
    | some rest =>
      match skipWs rest with
      | ',' :: r2 => parseJsonElems fuel r2
      | ']' :: r2 => some r2
      | _ => none
    | none => none

end

/-- Top-level keys of a JSON object literal, when the whole string parses as
one (models `json.loads(body).keys()` guarded by `isinstance(json_body, dict)`;
a parse failure — the `except: pass` in the source — is `none`). -/
def jsonTopKeys (s : String) : Option (List String) :=
  let fuel := 2 * s.data.length + 4
  match skipWs s.data with
  | [] => none
  | c :: r =>
    if c = openBraceChar then
      match parseJsonObjRest fuel r with
      | some (keys, rest) => if skipWs rest = [] then some keys else none
      | none => none
    else none

/-! ## `script/scanner/page_asset.py`: the data model -/

/-- `page_asset.InputField`. -/
structure InputField where
  internal_id : Nat
  page_url : String
  tag : String
  name : Option String
  input_type : Option String
  dom_id : Option String
  placeholder : Option String
  css_selector : String
  meta : List (String × String)
  source : String
deriving Repr, DecidableEq

/-- `page_asset.Cookie`. -/
structure Cookie where
  name : String
  value : String
  domain : String
  path : String
  expires : Int
  httpOnly : Bool
  secure : Bool
  sameSite : String
deriving Repr, DecidableEq

/-- `page_asset.StorageItem`. -/
structure StorageItem where
  key : String
  value : String
deriving Repr, DecidableEq

/-- `page_asset.ApiCall`. -/
structure ApiCall where
  id : Nat
  url : String
  method : String
  resource_type : String
  request_body : Option String
  page_url : Option String
  request_headers : List (String × String)
  request_cookies : List (String × String)
  response_status : Option Nat
  response_headers : List (String × String)
  response_body : Option String
deriving Repr, DecidableEq

/-- `page_asset.ScriptAsset`. -/
structure ScriptAsset where
  src : Option String
  content : Option String
  script_type : Option String
  is_inline : Bool
deriving Repr, DecidableEq

/-- `page_asset.ClickableElement`. -/
structure ClickableElement where
  internal_id : Nat
  page_url : String
  tag : String
  css_selector : String
  text : Option String
  disabled : Option Bool
  role : Option String
  onclick : Option String
deriving Repr, DecidableEq

/-- `page_asset.SubmissionUnit`. -/
structure SubmissionUnit where
  id : Nat
  page_url : String
  trigger_clickable_id : Option Nat
  related_input_ids : List Nat
  input_map : List (String × Nat)
  api_call_ids : List Nat
  kind : Option String
deriving Repr, DecidableEq

/-- `page_asset.PageAsset` (the `meta` dict is modelled by its two populated
entries, the goto response status and headers). -/
structure PageAsset where
  url : String
  final_url : Option String
  title : Option String
  html : Option String
  cleaned_html : Option String
  dom_snapshot : Option String
  scripts : List ScriptAsset
  inputs : List InputField
  clickables : List ClickableElement
  api_calls : List ApiCall
  submissions : List SubmissionUnit
  cookies : List Cookie
  local_storage : List StorageItem
  session_storage : List StorageItem
  comments : List String
  meta_status : Option Nat
  meta_headers : List (String × String)
deriving Repr, DecidableEq

/-! ## `script/scanner/site_scanner.py`: scanner state and environment -/

/-- The crawl-relevant fields of `SiteScanner` together with the `SiteAsset`
it mutates.  Python sets are modelled as duplicate-free lists, the `pages`
dict as an association list keyed by the originally requested URL. -/
structure ScanState where
  visited : List String
  pages : List (String × PageAsset)
  discovered_apis : List ApiCall
  auth_required_urls : List String
  next_input_id : Nat
  next_clickable_id : Nat
  next_api_id : Nat
  next_submission_id : Nat
  processed_script_urls : List String
deriving Repr, DecidableEq

/-- Initial state built by `SiteScanner.__init__`: all id counters start at 1. -/
def initScanState : ScanState :=
  ⟨[], [], [], [], 1, 1, 1, 1, []⟩

/-- Constructor arguments of `SiteScanner`. -/
structure ScanConfig where
  base_url : String
  max_depth : Nat
  same_origin_only : Bool
deriving Repr, DecidableEq

/-- `base_url.rstrip("/")`. -/
def rstripSlashes (s : String) : String :=
  String.mk ((s.data.reverse.dropWhile (· = '/')).reverse)

/-- `SiteScanner.__init__` normalises the base URL before deriving the origin. -/
def mkScanConfig (base_url : String) (max_depth : Nat) (same_origin_only : Bool) : ScanConfig :=
  ⟨rstripSlashes base_url, max_depth, same_origin_only⟩

/-- `self._base_origin = (parsed.scheme, parsed.netloc)`. -/
def baseOrigin (cfg : ScanConfig) : String × String :=
  let parsed := pyUrlparse cfg.base_url
  (parsed.scheme, parsed.netloc)

/-- `SiteScanner._should_visit`. -/
def shouldVisit (cfg : ScanConfig) (url : String) : Bool :=
  let parsed := pyUrlparse url
  if parsed.scheme ≠ "http" ∧ parsed.scheme ≠ "https" then false
  else if cfg.same_origin_only ∧ (parsed.scheme, parsed.netloc) ≠ baseOrigin cfg then false
  else true

/-- The probe response (`page.request.get`): status, headers, and the body
bytes; `body = none` models a raising `body()` read. -/
structure ProbeResp where
  status : Nat
  headers : List (String × String)
  body : Option String
deriving Repr, DecidableEq

/-- A form control matched by `query_selector_all("input, textarea, select")`. -/
structure RawDomInput where
  tag : String
  dom_id : Option String
  name : Option String
  input_type : Option String
  placeholder : Option String
deriving Repr, DecidableEq

/-- An element matched by `query_selector_all("button, a, [role=button], input[type=submit]")`. -/
structure RawClickable where
  tag : String
  dom_id : Option String
  role : Option String
  inner_text : String
  has_disabled_attr : Bool
  onclick : Option String
deriving Repr, DecidableEq

/-- A `script[src]` element. -/
structure RawExtScript where
  src : String
  script_type : Option String
deriving Repr, DecidableEq

/-- A `script:not([src])` element. -/
structure RawInlineScript where
  code : String
  script_type : Option String
deriving Repr, DecidableEq

/-- The response half of a finished request (`req.response()`); the body is
`none` when `resp.body()` raises. -/
structure RawResponse where
  status : Nat
  headers : List (String × String)
  body : Option String
deriving Repr, DecidableEq

/-- A finished request handed to `_on_request_finished_wrapper`. -/
structure RawRequest where
  resource_type : String
  url : String
  method : String
  post_data : Option String
  frame_url : String
  request_headers : List (String × String)
  response : Option RawResponse
deriving Repr, DecidableEq

/-- What the browser yields for one successfully rendered page: the goto
response, the final URL/title/HTML, and the raw DOM harvest that the
`_extract_*` helpers read. `captured` is the `_captured_apis` traffic observed
during this navigation (the buffer is cleared right before `goto`). -/
structure RenderResult where
  final_url : String
  resp_status : Nat
  resp_headers : List (String × String)
  title : String
  html : String
  body_inner_html : Option String
  dom_inputs : List RawDomInput
  editable_ids : List (Option String)
  raw_clickables : List RawClickable
  ext_scripts : List RawExtScript
  inline_scripts : List RawInlineScript
  captured : List RawRequest
  anchor_hrefs : List String
  cookies : List Cookie
  local_storage : List StorageItem
  session_storage : List StorageItem
  comments : List String
deriving Repr, DecidableEq

/-- The opaque collaborators of spec section 6: the HTTP probe, the browser
render surface, the external-script downloader (`none` covers both a raised
fetch and a non-ok response, which contribute no links), and the raw-HTML
noise-reduction transform `clean_html_for_llm`. -/
structure World where
  probe : String → Option ProbeResp
  render : String → Option RenderResult
  fetch_script : String → Option String
  clean_html : String → String

/-- `headers.get(key, "")` on a Playwright header dict. -/
def headerGet (hs : List (String × String)) (k : String) : String :=
  (hs.lookup k).getD ""

/-- Python truthiness of an optional string (`None` and `""` are falsy). -/
def truthy : Option String → Bool
  | none => false
  | some s => s ≠ ""

/-- `SiteScanner._build_css_selector`. -/
def buildCssSelector (tag : String) (dom_id : Option String) (name : Option String) : String :=
  if truthy dom_id then tag ++ "#" ++ dom_id.getD ""
  else if truthy name then tag ++ "[name=\"" ++ name.getD "" ++ "\"]"
  else tag

/-! ## Endpoint classification and standalone-API recording -/

/-- The classification decision of `_crawl_page` Step 1 (logic A, B, C in the
source): status-code set, content-type, then body sniffing. -/
def classifyIsApi (status : Nat) (contentType bodyStr : String) : Bool :=
  if status = 401 ∨ status = 403 ∨ status = 405 ∨ status = 204 then true
  else if strContains contentType "application/json"
       || strContains contentType "application/xml"
       || strContains contentType "text/xml" then true
  else if bodyStr ≠ "" then
    if strStarts bodyStr "\x7b" || strStarts bodyStr "[" then true
    else if strContains contentType "text/html" then
      let lowerBody := String.mk ((pyLower bodyStr).data.take 500)
      if ¬ (strContains lowerBody "<!doctype" || strContains lowerBody "<html"
            || strContains lowerBody "<head") then true
      else false
    else false
  else false

/-- Body stored by `_record_standalone_api`: bytes over 10000 are cut and a
bare newline is appended; a raising `body()` read stores `None`. -/
def standaloneRespBody : Option String → Option String
  | none => none
  | some bytes =>
    if bytes.length > 10000 then some (String.mk (bytes.data.take 10000) ++ "\n")
    else some bytes

/-- The `ApiCall` entry built by `_record_standalone_api`. -/
def mkStandaloneApi (nextApiId : Nat) (url : String) (resp : ProbeResp) : ApiCall :=
  { id := nextApiId
    url := url
    method := "GET"
    resource_type := "fetch"
    request_body := none
    page_url := some "crawler_discovery"
    request_headers := []
    request_cookies := []
    response_status := some resp.status
    response_headers := resp.headers
    response_body := standaloneRespBody resp.body }

/-- `SiteScanner._record_standalone_api`: append to `SiteAsset.discovered_apis`
and advance the shared API id counter. -/
def recordStandaloneApi (st : ScanState) (url : String) (resp : ProbeResp) : ScanState :=
  { st with
    discovered_apis := st.discovered_apis ++ [mkStandaloneApi st.next_api_id url resp]
    next_api_id := st.next_api_id + 1 }

/-! ## Network observer (`_on_request_finished_wrapper`) -/

/-- Response body stored by the observer: bytes over 10000 are cut and the
marker `\n<!-- truncated -->` is appended. -/
def capturedRespBody : Option String → Option String
  | none => none
  | some bytes =>
    if bytes.length > 10000 then
      some (String.mk (bytes.data.take 10000) ++ "\n<!-- truncated -->")
    else some bytes

/-- The `ApiCall` built by the observer for one finished request. -/
def mkCapturedApi (nextApiId : Nat) (r : RawRequest) : ApiCall :=
  { id := nextApiId
    url := r.url
    method := r.method
    resource_type := r.resource_type
    request_body := r.post_data
    page_url := some r.frame_url
    request_headers := r.request_headers
    request_cookies := []
    response_status := (r.response).map (·.status)
    response_headers := ((r.response).map (·.headers)).getD []
    response_body := match r.response with
                     | some resp => capturedRespBody resp.body
                     | none => none }

/-- The observer over one navigation's finished requests: keep resource types
xhr/fetch/websocket, assign ids from the shared counter in arrival order. -/
def processCaptured (n : Nat) : List RawRequest → List ApiCall × Nat
  | [] => ([], n)
  | r :: rest =>
    if r.resource_type = "xhr" ∨ r.resource_type = "fetch" ∨ r.resource_type = "websocket" then
      let (l, n') := processCaptured (n + 1) rest
      (mkCapturedApi n r :: l, n')
    else processCaptured n rest

/-! ## Entity extraction (`_extract_scripts`, `_extract_inputs`, `_extract_clickables`) -/

/-- `SiteScanner._is_relevant_script`: same-origin netloc check plus the
vendor/framework filename denylist. -/
def scriptIgnoreKeywords : List String :=
  ["runtime", "polyfills", "vendor", "jquery", "bootstrap", "popper", "react",
   "vue", "angular", "lodash", "moment", "axios", "cookieconsent"]

def isRelevantScript (cfg : ScanConfig) (src : String) : Bool :=
  let parsed := pyUrlparse src
  if parsed.netloc ≠ "" ∧ parsed.netloc ≠ (baseOrigin cfg).2 then false
  else
    let lowerSrc := pyLower src
    ¬ scriptIgnoreKeywords.any (fun kw => strContains lowerSrc kw)

/-- `SiteScanner._extract_scripts`: external `script[src]` elements filtered by
relevance (content left `None`), then all inline scripts with their code. -/
def extractScripts (cfg : ScanConfig) (r : RenderResult) : List ScriptAsset :=
  (r.ext_scripts.filterMap fun e =>
    if e.src = "" then none
    else if isRelevantScript cfg e.src then
      some { src := some e.src, content := none, script_type := e.script_type, is_inline := false }
    else none)
  ++ r.inline_scripts.map fun i =>
    { src := none, content := some i.code, script_type := i.script_type, is_inline := true }

/-- The three sources of `_extract_inputs`, in source order: DOM form controls,
contenteditable regions, URL query parameters. -/
inductive RawInputSrc where
  | dom (tag : String) (dom_id name input_type placeholder : Option String)
  | editable (dom_id : Option String)
  | urlParam (key value : String)
deriving Repr, DecidableEq

/-- Build the `InputField` for one source item, given its fresh internal id. -/
def mkInputField (page_url : String) (src : RawInputSrc) (id : Nat) : InputField :=
  match src with
  | .dom tag dom_id name input_type placeholder =>
    { internal_id := id, page_url := page_url, tag := tag, name := name
      input_type := input_type, dom_id := dom_id, placeholder := placeholder
      css_selector := buildCssSelector tag dom_id name, meta := [], source := "dom" }
  | .editable dom_id =>
    { internal_id := id, page_url := page_url, tag := "contenteditable", name := none
      input_type := some "richtext", dom_id := dom_id, placeholder := none
      css_selector := buildCssSelector "div" dom_id none, meta := [], source := "dom" }
  | .urlParam k v =>
    { internal_id := id, page_url := page_url, tag := "url_param", name := some k
      input_type := some "text", dom_id := none, placeholder := some v
      css_selector := "", meta := [("value", v)], source := "url_param" }

/-- The input sources of a page in extraction order. -/
def inputsPlan (r : RenderResult) (page_url : String) : List RawInputSrc :=
  r.dom_inputs.map (fun d => .dom d.tag d.dom_id d.name d.input_type d.placeholder)
  ++ r.editable_ids.map .editable
  ++ (pyParseQs (pyUrlparse page_url).query).flatMap
      (fun kv => kv.2.map (fun v => .urlParam kv.1 v))

/-- Assign consecutive ids from counter `n` to a list of items. -/
def assignSeq {α β : Type} (f : α → Nat → β) : Nat → List α → List β × Nat
  | n, [] => ([], n)
  | n, x :: rest =>
    let (l, n') := assignSeq f (n + 1) rest
    (f x n :: l, n')

/-- `SiteScanner._extract_inputs`: every extracted input receives the next
value of the input id counter. -/
def extractInputs (r : RenderResult) (page_url : String) (n : Nat) : List InputField × Nat :=
  assignSeq (mkInputField page_url) n (inputsPlan r page_url)

/-- Build the `ClickableElement` for one raw element. -/
def mkClickable (page_url : String) (c : RawClickable) (id : Nat) : ClickableElement :=
  { internal_id := id
    page_url := page_url
    tag := c.tag
    css_selector := buildCssSelector c.tag c.dom_id none
    text := if c.inner_text = "" then none else some (pyStrip c.inner_text)
    disabled := some c.has_disabled_attr
    role := c.role
    onclick := c.onclick }

/-- `SiteScanner._extract_clickables`. -/
def extractClickables (r : RenderResult) (page_url : String) (n : Nat) :
    List ClickableElement × Nat :=
  assignSeq (mkClickable page_url) n r.raw_clickables

/-! ## Submission correlation (`_crawl_page` step 5) -/

/-- Parameter names discovered for one API call: JSON-object body top-level
keys, else URL-encoded form body keys, plus URL query-string keys. -/
def paramsFound (api : ApiCall) : List String :=
  let bodyParams : List String :=
    match api.request_body with
    | some b =>
      if b ≠ "" ∧ strStarts b "\x7b" then (jsonTopKeys b).getD []
      else if b ≠ "" ∧ b.data.contains '=' then (pyParseQsl b).map (·.1)
      else []
    | none => []
  let parsedApi := pyUrlparse api.url
  let queryParams : List String :=
    if parsedApi.query ≠ "" then (pyParseQs parsedApi.query).map (·.1) else []
  bodyParams ++ queryParams

/-- `input_map[name] = id` (dict assignment: replace else append). -/
def dictSet : List (String × Nat) → String → Nat → List (String × Nat)
  | [], k, v => [(k, v)]
  | (k', v') :: rest, k, v =>
    if k' = k then (k, v) :: rest else (k', v') :: dictSet rest k v

/-- One iteration of the matching loop over the page's inputs. -/
def matchStep (params : List String) (acc : List Nat × List (String × Nat))
    (inp : InputField) : List Nat × List (String × Nat) :=
  match inp.name with
  | some n =>
    if n ≠ "" ∧ params.contains n then
      (acc.1 ++ [inp.internal_id], dictSet acc.2 n inp.internal_id)
    else acc
  | none => acc

/-- The core matching loop: inputs whose `name` occurs among the discovered
parameters are appended to `related_inputs` and recorded in `input_map`. -/
def matchInputs (inputs : List InputField) (params : List String) :
    List Nat × List (String × Nat) :=
  inputs.foldl (matchStep params) ([], [])

/-- Build the `SubmissionUnit` for one observed API call, including the
all-inputs fallback for unmatched POST/PUT/PATCH calls. -/
def mkSubmission (page_url : String) (inputs : List InputField) (api : ApiCall)
    (id : Nat) : SubmissionUnit :=
  let m := matchInputs inputs (paramsFound api)
  let relatedInputs :=
    if m.1 = [] ∧ (api.method = "POST" ∨ api.method = "PUT" ∨ api.method = "PATCH")
       ∧ inputs ≠ [] then
      inputs.map (·.internal_id)
    else m.1
  { id := id
    page_url := page_url
    trigger_clickable_id := none
    related_input_ids := relatedInputs
    input_map := m.2
    api_call_ids := [api.id]
    kind := some "auto_detected" }

/-- Step 5 of `_crawl_page`: one `SubmissionUnit` per observed API call, ids
drawn from the submission counter. -/
def buildSubmissions (page_url : String) (inputs : List InputField) (n : Nat)
    (apis : List ApiCall) : List SubmissionUnit × Nat :=
  assignSeq (mkSubmission page_url inputs) n apis

/-! ## Link collection (`_collect_links`) and the crawl loop -/

/-- The `content_to_scan` of one script in `_collect_links`, together with the
updated `processed_script_urls` set: inline code directly; external scripts
resolved, deduplicated, relevance filtered and downloaded (2MB cap, else the
first 512000 bytes). -/
def scriptContentToScan (w : World) (cfg : ScanConfig) (currentUrl : String)
    (processed : List String) (script : ScriptAsset) : String × List String :=
  if script.is_inline ∧ truthy script.content then (script.content.getD "", processed)
  else if truthy script.src then
    let absoluteSrc := pyUrljoin currentUrl (script.src.getD "")
    if processed.contains absoluteSrc then ("", processed)
    else if ¬ isRelevantScript cfg absoluteSrc then ("", setInsert processed absoluteSrc)
    else
      match w.fetch_script absoluteSrc with
      | some bodyBytes =>
        (if bodyBytes.length < 2097152 then bodyBytes
         else String.mk (bodyBytes.data.take 512000),
         setInsert processed absoluteSrc)
      | none => ("", processed)
  else ("", processed)

def scanOneScript (w : World) (cfg : ScanConfig) (currentUrl : String)
    (found processed : List String) (script : ScriptAsset) : List String × List String :=
  let cp := scriptContentToScan w cfg currentUrl processed script
  if cp.1 ≠ "" then
    ((extractLinks cp.1 currentUrl).foldl
      (fun acc link => if shouldVisit cfg link then setInsert acc link else acc) found,
     cp.2)
  else (found, cp.2)

/-- `SiteScanner._collect_links`: anchor hrefs resolved and origin-filtered,
then the per-script deep scan.  Returns the frontier candidates found on this
page and the updated processed-script set. -/
def collectLinks (w : World) (cfg : ScanConfig) (currentUrl : String)
    (anchors : List String) (scripts : List ScriptAsset) (processed : List String) :
    List String × List String :=
  let found := anchors.foldl
    (fun acc href =>
      if href ≠ "" then
        let absoluteUrl := pyUrljoin currentUrl href
        if shouldVisit cfg absoluteUrl then setInsert acc absoluteUrl else acc
      else acc) []
  scripts.foldl
    (fun (acc : List String × List String) script =>
      scanOneScript w cfg currentUrl acc.1 acc.2 script)
    (found, processed)

/-- `pages[url] = pa` (dict assignment on the association list). -/
def insertPage : List (String × PageAsset) → String → PageAsset → List (String × PageAsset)
  | [], u, pa => [(u, pa)]
  | (k, v) :: rest, u, pa =>
    if k = u then (k, pa) :: rest else (k, v) :: insertPage rest u pa

/-- The `PageAsset` built at the end of `_crawl_page` step 5/6, given the
already-extracted entities. -/
def mkPageAsset (w : World) (url : String) (r : RenderResult)
    (scripts : List ScriptAsset) (inputs : List InputField)
    (clickables : List ClickableElement) (apiCalls : List ApiCall)
    (submissions : List SubmissionUnit) : PageAsset :=
  { url := url
    final_url := some r.final_url
    title := some r.title
    html := some r.html
    cleaned_html := some (w.clean_html r.html)
    dom_snapshot := r.body_inner_html
    scripts := scripts
    inputs := inputs
    clickables := clickables
    api_calls := apiCalls
    submissions := submissions
    cookies := r.cookies
    local_storage := r.local_storage
    session_storage := r.session_storage
    comments := r.comments
    meta_status := some r.resp_status
    meta_headers := r.resp_headers }

/-- Step 2 onward of `_crawl_page`, up to (but excluding) the recursive
descent: render, the post-goto JSON re-check, the off-origin-redirect abort,
entity harvesting and `PageAsset` storage.  Returns the updated state and the
frontier candidates collected on this page (empty when the page was skipped). -/
def renderStep (w : World) (cfg : ScanConfig) (url : String) (st : ScanState) :
    ScanState × List String :=
  match w.render url with
  | none => (st, [])
  | some r =>
    let ct := pyLower (headerGet r.resp_headers "content-type")
    if strContains ct "application/json" then (st, [])
    else if cfg.same_origin_only ∧ ¬ shouldVisit cfg r.final_url then (st, [])
    else
      let currentUrl := r.final_url
      let scripts := extractScripts cfg r
      let inputsP := extractInputs r currentUrl st.next_input_id
      let clickablesP := extractClickables r currentUrl st.next_clickable_id
      let apisP := processCaptured st.next_api_id r.captured
      let subsP := buildSubmissions url inputsP.1 st.next_submission_id apisP.1
      let pa := mkPageAsset w url r scripts inputsP.1 clickablesP.1 apisP.1 subsP.1
      let linksP :=
        collectLinks w cfg currentUrl r.anchor_hrefs scripts st.processed_script_urls
      ({ st with
          next_input_id := inputsP.2
          next_clickable_id := clickablesP.2
          next_api_id := apisP.2
          next_submission_id := subsP.2
          pages := insertPage st.pages url pa
          processed_script_urls := linksP.2 },
       linksP.1)

/-- `SiteScanner._crawl_page`, with explicit state and a fuel parameter in
place of the (depth-bounded) Python recursion.  Mirrors the source order:
depth / visited / origin gating, then the probe step with its 401/403 early
return and API classification, then the render step and the recursive descent
into the links collected on this page. -/
def crawlPage (w : World) (cfg : ScanConfig) : Nat → String → Nat → ScanState → ScanState
  | 0, _, _, st => st
  | fuel + 1, url, depth, st =>
    if depth > cfg.max_depth then st
    else if st.visited.contains url then st
    else if ¬ shouldVisit cfg url then st
    else
      let st' := { st with visited := setInsert st.visited url }
      let descend : ScanState → ScanState := fun s0 =>
        let rp := renderStep w cfg url s0
        rp.2.foldl (fun s link => crawlPage w cfg fuel link (depth + 1) s) rp.1
      match w.probe url with
      | some probeResp =>
        if probeResp.status = 401 ∨ probeResp.status = 403 then
          recordStandaloneApi
            { st' with auth_required_urls := setInsert st'.auth_required_urls url }
            url probeResp
        else
          let bodyStr := pyStrip (probeResp.body.getD "")
          let contentType := pyLower (headerGet probeResp.headers "content-type")
          if classifyIsApi probeResp.status contentType bodyStr then
            recordStandaloneApi st' url probeResp
          else descend st'
      | none => descend st'

/-- `SiteScanner.scan`: crawl from the base URL at depth 0. -/
def scan (w : World) (cfg : ScanConfig) (fuel : Nat) : ScanState :=
  crawlPage w cfg fuel cfg.base_url 0 initScanState

/-- `SiteScanner.scan_authenticated`: re-crawl each recorded auth-required URL
at depth 0 on the same state, removing it from `visited` first; every id
counter keeps running. -/
def scanAuthenticated (w : World) (cfg : ScanConfig) (fuel : Nat) (st : ScanState) : ScanState :=
  st.auth_required_urls.foldl
    (fun s url => crawlPage w cfg fuel url 0 { s with visited := s.visited.erase url })
    st

/-! ## HTML document model (BeautifulSoup with the `html.parser` builder) -/

/-- A parsed DOM node: text, comment (incl. doctype declarations), or element.
Tag and attribute names are lowercased by the builder, as in `html.parser`. -/
inductive HNode where
  | text (s : String)
  | comment (s : String)
  | elem (name : String) (attrs : List (String × String)) (children : List HNode)

/-- Tokens produced by the markup tokenizer. -/
inductive HTok where
  | text (s : String)
  | tagOpen (name : String) (attrs : List (String × String)) (selfClose : Bool)
  | tagClose (name : String)
  | comment (s : String)
  | decl (s : String)

def lowerStr (cs : List Char) : String :=
  pyLower (String.mk cs)

def isTagNameChar (c : Char) : Bool :=
  c.isAlphanum || c = '-' || c = '.' || c = ':' || c = '_'

def isAttrNameChar (c : Char) : Bool :=
  ¬ (c.isWhitespace || c = '=' || c = '/' || c = '>')

/-- Split a character list around the first occurrence of `pat` (here always
sought case-insensitively on ASCII): `(before, after-the-pattern)`; when `pat`
is absent the whole input is `before`. -/
def splitAtSubCI (pat : List Char) : Nat → List Char → List Char × List Char
  | 0, cs => (cs, [])
  | _, [] => ([], [])
  | fuel + 1, c :: r =>
    if pat.isPrefixOf ((c :: r).map Char.toLower) then ([], (c :: r).drop pat.length)
    else
      let (b, a) := splitAtSubCI pat fuel r
      (c :: b, a)

/-- Parse the attribute list of a start tag, up to `>` or `/>`. -/
def parseAttrs : Nat → List Char → List (String × String) →
    List (String × String) × Bool × List Char
  | 0, cs, acc => (acc.reverse, false, cs)
  | fuel + 1, cs, acc =>
    let cs := cs.dropWhile Char.isWhitespace
    match cs with
    | [] => (acc.reverse, false, [])
    | '>' :: rest => (acc.reverse, false, rest)
    | '/' :: rest =>
      (match rest with
       | '>' :: rest2 => (acc.reverse, true, rest2)
       | _ => parseAttrs fuel rest acc)
    | _ =>
      let aname := cs.takeWhile isAttrNameChar
      let cs1 := cs.dropWhile isAttrNameChar
      if aname.isEmpty then parseAttrs fuel (cs1.drop 1) acc
      else
        let cs2 := cs1.dropWhile Char.isWhitespace
        match cs2 with
        | '=' :: cs3 =>
          let cs4 := cs3.dropWhile Char.isWhitespace
          (match cs4 with
           | '"' :: cs5 =>
             let v := cs5.takeWhile (· ≠ '"')
             parseAttrs fuel ((cs5.dropWhile (· ≠ '"')).drop 1)
               ((lowerStr aname, String.mk v) :: acc)
           | c :: cs5 =>
             if c = aposChar then
               let v := cs5.takeWhile (· ≠ aposChar)
               parseAttrs fuel ((cs5.dropWhile (· ≠ aposChar)).drop 1)
                 ((lowerStr aname, String.mk v) :: acc)
             else
               let v := cs4.takeWhile (fun c => ¬ c.isWhitespace ∧ c ≠ '>')
               parseAttrs fuel (cs4.dropWhile (fun c => ¬ c.isWhitespace ∧ c ≠ '>'))
                 ((lowerStr aname, String.mk v) :: acc)
           | [] => ((lowerStr aname, "") :: acc |>.reverse, false, []))
        | _ => parseAttrs fuel cs2 ((lowerStr aname, "") :: acc)

/-- `html.parser` treats script/style content as CDATA. -/
def cdataContentTags : List String := ["script", "style"]

/-- Tokenize markup: text runs, start/end tags with attributes, comments and
declarations; a `<` that opens no recognisable construct is emitted as text. -/
def tokenizeHtml : Nat → List Char → List HTok
  | 0, _ => []
  | _, [] => []
  | fuel + 1, c0 :: cs0 =>
    if c0 = '<' then
      match cs0 with
      | '/' :: r2 =>
        let name := r2.takeWhile isTagNameChar
        if name.isEmpty then HTok.text "<" :: tokenizeHtml fuel cs0
        else
          let r3 := r2.dropWhile isTagNameChar
          let r4 := (r3.dropWhile (· ≠ '>')).drop 1
          HTok.tagClose (lowerStr name) :: tokenizeHtml fuel r4
      | '!' :: r2 =>
        if ['-', '-'].isPrefixOf r2 then
          let (body, after) := splitAtSubCI "-->".data (r2.length + 1) (r2.drop 2)
          HTok.comment (String.mk body) :: tokenizeHtml fuel after
        else
          let body := r2.takeWhile (· ≠ '>')
          HTok.decl (String.mk body) :: tokenizeHtml fuel ((r2.dropWhile (· ≠ '>')).drop 1)
      | c :: _ =>
        if c.isAlpha then
          let name := cs0.takeWhile isTagNameChar
          let r2 := cs0.dropWhile isTagNameChar
          let (attrs, selfClose, r3) := parseAttrs (r2.length + 1) r2 []
          let nameL := lowerStr name
          if ¬ selfClose ∧ cdataContentTags.contains nameL then
            let (body, after) := splitAtSubCI ("</" ++ nameL).data (r3.length + 1) r3
            let after2 := (after.dropWhile (· ≠ '>')).drop 1
            HTok.tagOpen nameL attrs false :: HTok.text (String.mk body)
              :: HTok.tagClose nameL :: tokenizeHtml fuel after2
          else HTok.tagOpen nameL attrs selfClose :: tokenizeHtml fuel r3
        else HTok.text "<" :: tokenizeHtml fuel cs0
      | [] => [HTok.text "<"]
    else
      let txt := (c0 :: cs0).takeWhile (· ≠ '<')
      HTok.text (String.mk txt) :: tokenizeHtml fuel ((c0 :: cs0).dropWhile (· ≠ '<'))

/-- Tags the tree builder closes immediately (BeautifulSoup's
`empty_element_tags`). -/
def voidTags : List String :=
  ["area", "base", "br", "col", "embed", "hr", "img", "input", "keygen", "link",
   "menuitem", "meta", "param", "source", "track", "wbr", "basefont", "bgsound",
   "command", "frame", "image", "isindex", "nextid", "spacer"]

/-- An open element on the tree builder's stack. -/
structure BFrame where
  name : String
  attrs : List (String × String)
  children : List HNode

def closeFrame (f : BFrame) : HNode :=
  .elem f.name f.attrs f.children

/-- Attach a completed node to the innermost open element (or the root list). -/
def addChild (stack : List BFrame) (roots : List HNode) (n : HNode) :
    List BFrame × List HNode :=
  match stack with
  | f :: rest => ({ f with children := f.children ++ [n] } :: rest, roots)
  | [] => ([], roots ++ [n])

/-- Work loop of `popToTag`: `n` is the just-closed node, `found` whether the
sought tag has been reached. -/
def popToTagGo (name_ : String) (n : HNode) (found : Bool) :
    List BFrame → List HNode → List BFrame × List HNode
  | [], roots => ([], roots ++ [n])
  | g :: gr, roots =>
    let g' := { g with children := g.children ++ [n] }
    if found then (g' :: gr, roots)
    else popToTagGo name_ (closeFrame g') (g'.name == name_) gr roots

/-- Pop open elements until (and including) the first named `name_`, closing
each popped element into its parent (BeautifulSoup's `_popToTag`). -/
def popToTag (name_ : String) : List BFrame → List HNode → List BFrame × List HNode
  | [], roots => ([], roots)
  | f :: rest, roots => popToTagGo name_ (closeFrame f) (f.name == name_) rest roots

/-- Work loop of `closeAll`: fold the completed node into successive parents. -/
def closeAllGo (n : HNode) : List BFrame → List HNode → List HNode
  | [], roots => roots ++ [n]
  | g :: gr, roots => closeAllGo (closeFrame { g with children := g.children ++ [n] }) gr roots

/-- Close every still-open element at end of input. -/
def closeAll : List BFrame → List HNode → List HNode
  | [], roots => roots
  | f :: rest, roots => closeAllGo (closeFrame f) rest roots

/-- The tree builder: void/self-closing tags close at once, end tags pop to
their matching open tag (unmatched end tags are ignored). -/
def buildTree : List HTok → List BFrame → List HNode → List HNode
  | [], stack, roots => closeAll stack roots
  | tok :: toks, stack, roots =>
    match tok with
    | .text s =>
      let (stack, roots) := addChild stack roots (.text s)
      buildTree toks stack roots
    | .comment s =>
      let (stack, roots) := addChild stack roots (.comment s)
      buildTree toks stack roots
    | .decl s =>
      let (stack, roots) := addChild stack roots (.comment s)
      buildTree toks stack roots
    | .tagOpen name attrs selfClose =>
      if selfClose ∨ voidTags.contains name then
        let (stack, roots) := addChild stack roots (.elem name attrs [])
        buildTree toks stack roots
      else buildTree toks (⟨name, attrs, []⟩ :: stack) roots
    | .tagClose name =>
      if stack.any (·.name = name) then
        let (stack, roots) := popToTag name stack roots
        buildTree toks stack roots
      else buildTree toks stack roots

/-- `BeautifulSoup(html, "html.parser")`: the document's top-level nodes. -/
def parseHtml (s : String) : List HNode :=
  buildTree (tokenizeHtml (s.data.length + 1) s.data) [] []

mutual

/-- First `body` element in document order (`soup.body`). -/
def findBodyNode : HNode → Option HNode
  | .text _ => none
  | .comment _ => none
  | .elem n a c => if n = "body" then some (.elem n a c) else findBodyList c
termination_by structural n => n

def findBodyList : List HNode → Option HNode
  | [] => none
  | h :: t =>
    match findBodyNode h with
    | some b => some b
    | none => findBodyList t
termination_by structural l => l

end

/-! ## `script/scanner/dom_distiller.py`: `InteractionDomDistiller` -/

/-- `DistillConfig`. -/
structure DistillConfig where
  max_text_len : Nat := 80
  max_event_code_len : Nat := 120
  truncate_marker : String := "..."
deriving Repr, DecidableEq

def interactiveTags : List String :=
  ["input", "textarea", "select", "button", "a", "form"]

def dataAttrKeywords : List String :=
  ["token", "jwt", "auth", "key", "secret"]

def attrWhitelistNames : List String :=
  ["id", "name", "type", "value", "href", "action", "method", "placeholder", "for", "src"]

/-- `EVENT_ATTRS`; the Python set is iterated in its literal order here (the
concrete iteration order of a `set` is a per-process artefact). -/
def eventAttrNames : List String :=
  ["onclick", "onsubmit", "onchange", "oninput", "onblur", "onfocus"]

def tagsToDrop : List String := ["style", "script", "svg"]

/-- Attribute names BeautifulSoup stores as multi-valued lists; for those the
`isinstance(attr_value, str)` guard in `_is_salient_node` fails, so their
values are never keyword-searched. -/
def cdataListAttrs : List String :=
  ["class", "rel", "rev", "accept-charset", "headers", "accesskey"]

/-- One attribute's contribution to `_is_salient_node`: `data-*` names, or a
credential keyword in the name, or (for string-valued attributes) in the value. -/
def attrSalient (a : String × String) : Bool :=
  let nameLower := pyLower a.1
  strStarts nameLower "data-" ||
  dataAttrKeywords.any (fun kw =>
    strContains nameLower kw ||
    (¬ cdataListAttrs.contains a.1 ∧ strContains (pyLower a.2) kw))

/-- `InteractionDomDistiller._is_salient_node`. -/
def isSalientSelf : HNode → Bool
  | .elem name attrs _ =>
    interactiveTags.contains (pyLower name) || attrs.any attrSalient
  | _ => false

mutual

/-- `_mark_salient_nodes`: is any node of this subtree salient?  Subtrees of
the hard-dropped tags are non-salient regardless of content. -/
def subtreeSalient : HNode → Bool
  | .text _ => false
  | .comment _ => false
  | .elem name attrs children =>
    if tagsToDrop.contains name then false
    else isSalientSelf (.elem name attrs children) || subtreeSalientList children
termination_by structural n => n

def subtreeSalientList : List HNode → Bool
  | [] => false
  | h :: t => subtreeSalient h || subtreeSalientList t
termination_by structural l => l

end

mutual

/-- All descendant strings of a node, in document order. -/
def nodeStrings : HNode → List String
  | .text s => [s]
  | .comment _ => []
  | .elem _ _ c => listStrings c
termination_by structural n => n

def listStrings : List HNode → List String
  | [] => []
  | h :: t => nodeStrings h ++ listStrings t
termination_by structural l => l

end

/-- `node.get_text(strip=True)`: strip each descendant string, join. -/
def getTextStrip (n : HNode) : String :=
  String.join ((nodeStrings n).map pyStrip)

/-- `InteractionDomDistiller._shorten_str`. -/
def shortenStr (cfg : DistillConfig) (s : String) (maxLen : Nat) : String :=
  if s.length ≤ maxLen then s
  else String.mk (s.data.take (maxLen - cfg.truncate_marker.length)) ++ cfg.truncate_marker

/-- `InteractionDomDistiller._render_node_as_dsl`. -/
def renderNodeDsl (cfg : DistillConfig) (n : HNode) (depth : Nat) : String :=
  match n with
  | .elem name attrs _ =>
    let tagName := pyLower name
    let indent := String.join (List.replicate depth "  ")
    let elemId := attrs.lookup "id"
    let elemName := attrs.lookup "name"
    let header :=
      if truthy elemId then tagName ++ "#" ++ elemId.getD ""
      else if truthy elemName then tagName ++ "[name=" ++ elemName.getD "" ++ "]"
      else tagName
    let attrsParts := attrs.filterMap fun a =>
      let attrNameLower := pyLower a.1
      if eventAttrNames.contains attrNameLower then none
      else if attrWhitelistNames.contains attrNameLower then
        some (attrNameLower ++ "=\"" ++ shortenStr cfg a.2 cfg.max_text_len ++ "\"")
      else none
    let eventParts := eventAttrNames.filterMap fun evt =>
      match attrs.lookup evt with
      | some code => some (evt ++ "=\"" ++ shortenStr cfg code cfg.max_event_code_len ++ "\"")
      | none => none
    let textSnippet :=
      if tagName = "button" ∨ tagName = "a" ∨ tagName = "option" ∨ tagName = "label" then
        let text := getTextStrip n
        if text ≠ "" then shortenStr cfg text cfg.max_text_len else ""
      else ""
    let parts := [header] ++ attrsParts ++ eventParts
      ++ (if textSnippet ≠ "" then ["text=\"" ++ textSnippet ++ "\""] else [])
    indent ++ String.intercalate " " parts
  | _ => ""

mutual

/-- `_linearize`: depth-first emission of the salient subtree; indentation
grows only below self-salient ancestors. -/
def linearizeNode (cfg : DistillConfig) : HNode → Nat → List String
  | .text _, _ => []
  | .comment _, _ => []
  | .elem name attrs children, depth =>
    if ¬ subtreeSalient (.elem name attrs children) then []
    else
      let selfSal := isSalientSelf (.elem name attrs children)
      let here :=
        if selfSal then
          let line := renderNodeDsl cfg (.elem name attrs children) depth
          if line ≠ "" then [line] else []
        else []
      here ++ linearizeList cfg children (depth + (if selfSal then 1 else 0))
termination_by structural n _ => n

def linearizeList (cfg : DistillConfig) : List HNode → Nat → List String
  | [], _ => []
  | h :: t, d => linearizeNode cfg h d ++ linearizeList cfg t d
termination_by structural l _ => l

end

/-- `soup.body or soup`: the distillation root. -/
def distillRoot (doc : List HNode) : HNode :=
  match findBodyList doc with
  | some b => b
  | none => .elem "[document]" [] doc

/-- `InteractionDomDistiller.distill_html` with an explicit config. -/
def distillHtmlWith (cfg : DistillConfig) (html : String) : String :=
  String.intercalate "\n" (linearizeNode cfg (distillRoot (parseHtml html)) 0)

/-- `InteractionDomDistiller().distill_html` (default config). -/
def distill_html (html : String) : String :=
  distillHtmlWith {} html

/-! ## `script/analysis/asset_triager.py`: `AssetTriager` -/

/-- The stack-trace/leak keyword set of `_is_error_page`. -/
def errorKeywords : List String :=
  ["stacktrace", "syntaxerror", "unexpected path", "internal server error",
   "exception at", "node_modules"]

/-- `AssetTriager._is_error_page`. -/
def isErrorPage (page : PageAsset) : Bool :=
  (match page.title with
   | some t => t ≠ "" ∧ strContains (pyLower t) "error"
   | none => false)
  ||
  (match page.cleaned_html with
   | some ch => ch ≠ "" ∧ errorKeywords.any (fun kw => strContains (pyLower ch) kw)
   | none => false)

/-- The genuine-action check on clickables: `tag == "button"`, an inline
`onclick`, or `role == "button"`. -/
def hasRealAction (page : PageAsset) : Bool :=
  page.clickables.any fun c =>
    c.tag == "button" || c.onclick.isSome || c.role == some "button"

/-- `AssetTriager._classify_page`: clue, then interactive, then secondary
clue, then static. -/
def classifyPage (page : PageAsset) : String :=
  if isErrorPage page then "clues"
  else if ¬ page.inputs.isEmpty ∨ ¬ page.api_calls.isEmpty then "interactive"
  else if hasRealAction page then "interactive"
  else if ¬ page.comments.isEmpty ∨ ¬ page.cookies.isEmpty then "clues"
  else "static"

/-- The triager's bucket containers (pages kept whole; the source stores their
serialized forms). -/
structure TriageBuckets where
  interactive : List PageAsset
  clues : List PageAsset
  static : List PageAsset
  standalone_apis : List ApiCall
deriving Repr, DecidableEq

def bucketAdd (b : TriageBuckets) (category : String) (page : PageAsset) : TriageBuckets :=
  if category = "interactive" then { b with interactive := b.interactive ++ [page] }
  else if category = "clues" then { b with clues := b.clues ++ [page] }
  else { b with static := b.static ++ [page] }

/-- `AssetTriager.triage`: classify every page, then append every discovered
standalone API. -/
def triage (pages : List (String × PageAsset)) (discovered : List ApiCall) : TriageBuckets :=
  let b := pages.foldl (fun b p => bucketAdd b (classifyPage p.2) p.2) ⟨[], [], [], []⟩
  { b with standalone_apis := b.standalone_apis ++ discovered }

/-! ## General helper lemmas -/

theorem foldl_preserve {α σ : Type} {P : σ → Prop} {f : σ → α → σ}
    (h : ∀ s a, P s → P (f s a)) : ∀ (l : List α) (s : σ), P s → P (l.foldl f s) := by
  intro l
  induction l with
  | nil => intro s hs; exact hs
  | cons a t ih => intro s hs; exact ih (f s a) (h s a hs)

theorem mem_of_mem_setInsert {l : List String} {x y : String}
    (h : y ∈ setInsert l x) : y ∈ l ∨ y = x := by
  unfold setInsert at h
  split at h
  · exact Or.inl h
  · rcases List.mem_append.mp h with h1 | h1
    · exact Or.inl h1
    · exact Or.inr (List.mem_singleton.mp h1)

theorem mem_setInsert_of_mem {l : List String} {x y : String}
    (h : y ∈ l) : y ∈ setInsert l x := by
  unfold setInsert
  split
  · exact h
  · exact List.mem_append.mpr (Or.inl h)

/-! ## Claim C7: error-titled pages bucket as clues ahead of interactivity -/

/-- C7: a `PageAsset` whose title contains "error" case-insensitively is
classified "clues" by the triager even when it has inputs, observed API calls
or genuine-action clickables: the clue check runs first and wins. -/
theorem error_title_buckets_as_clue (page : PageAsset) (t : String)
    (htitle : page.title = some t) (ht : t ≠ "")
    (herr : strContains (pyLower t) "error" = true) :
    classifyPage page = "clues" ∧ classifyPage page ≠ "interactive" := by
  have hep : isErrorPage page = true := by
    unfold isErrorPage
    rw [htitle]
    simp [ht, herr]
  unfold classifyPage
  rw [hep]
  simp

/-- A concrete page titled "Internal Error" carrying an input, an observed API
call, and a genuine-action button clickable. -/
def errorPageExample : PageAsset :=
  { url := "http://site.test/err"
    final_url := some "http://site.test/err"
    title := some "Internal Error"
    html := some "<html></html>"
    cleaned_html := some "<html></html>"
    dom_snapshot := none
    scripts := []
    inputs := [{ internal_id := 1, page_url := "http://site.test/err", tag := "input",
                 name := some "q", input_type := some "text", dom_id := none,
                 placeholder := none, css_selector := "input[name=\"q\"]", meta := [],
                 source := "dom" }]
    clickables := [{ internal_id := 1, page_url := "http://site.test/err", tag := "button",
                     css_selector := "button", text := some "Go", disabled := some false,
                     role := none, onclick := some "run()" }]
    api_calls := [{ id := 1, url := "http://site.test/api", method := "POST",
                    resource_type := "xhr", request_body := none, page_url := none,
                    request_headers := [], request_cookies := [], response_status := some 200,
                    response_headers := [], response_body := none }]
    submissions := []
    cookies := []
    local_storage := []
    session_storage := []
    comments := []
    meta_status := some 500
    meta_headers := [] }

theorem error_title_buckets_as_clue_witness :
    classifyPage errorPageExample = "clues" ∧ classifyPage errorPageExample ≠ "interactive" :=
  error_title_buckets_as_clue errorPageExample "Internal Error" rfl (by decide) (by decide)

/-! ## Claim C3: 10KB cap on no-render API bodies; marker differs from the claim -/

theorem isPrefixOf_cons_false {a b : Char} (t u : List Char) (h : (a == b) = false) :
    List.isPrefixOf (a :: t) (b :: u) = false := by
  simp [List.isPrefixOf, h]

theorem listContainsSub_eq_false {p : Char} (pt : List Char)
    (l : List Char) (h : ∀ x ∈ l, x ≠ p) : listContainsSub (p :: pt) l = false := by
  induction l with
  | nil => rfl
  | cons c rest ih =>
    have hc : (p == c) = false := by
      rw [beq_eq_false_iff_ne]
      exact Ne.symm (h c (by simp))
    rw [listContainsSub]
    simp only [isPrefixOf_cons_false pt rest hc, Bool.false_or]
    exact ih (fun x hx => h x (List.mem_cons_of_mem _ hx))

/-- A 10001-byte response body. -/
def longBody : String := String.mk (List.replicate 10001 'a')

/-- C3 counterexample: `_record_standalone_api` cuts an oversized body at
10000 bytes but appends only a newline after the cut — the stored body does
not end in (or contain) the `<!-- truncated -->` marker that the network
observer appends. -/
theorem standalone_truncation_lacks_marker :
    standaloneRespBody (some longBody) = some (String.mk (List.replicate 10000 'a') ++ "\n")
    ∧ strEnds ((standaloneRespBody (some longBody)).getD "") "<!-- truncated -->" = false
    ∧ strContains ((standaloneRespBody (some longBody)).getD "") "<!-- truncated -->" = false := by
  have hlen : longBody.length > 10000 := by
    show (List.replicate 10001 'a').length > 10000
    rw [List.length_replicate]
    norm_num
  have htake : longBody.data.take 10000 = List.replicate 10000 'a' := by
    show (List.replicate 10001 'a').take 10000 = _
    rw [List.take_replicate]
    norm_num
  have heq : standaloneRespBody (some longBody)
      = some (String.mk (List.replicate 10000 'a') ++ "\n") := by
    simp only [standaloneRespBody]
    rw [if_pos hlen, htake]
  have hdata : (String.mk (List.replicate 10000 'a') ++ "\n").data
      = List.replicate 10000 'a' ++ ['\n'] := by
    rw [String.data_append]
  refine ⟨heq, ?_, ?_⟩
  · rw [heq]
    show strEnds (String.mk (List.replicate 10000 'a') ++ "\n") "<!-- truncated -->" = false
    unfold strEnds
    rw [hdata, List.isSuffixOf, List.reverse_append]
    have h1 : ("<!-- truncated -->".data).reverse
        = '>' :: ("<!-- truncated --".data).reverse := by decide
    have h2 : (['\n'] : List Char).reverse ++ (List.replicate 10000 'a').reverse
        = '\n' :: (List.replicate 10000 'a').reverse := by
      rw [List.reverse_singleton, List.singleton_append]
    rw [h1, h2]
    exact isPrefixOf_cons_false _ _ (by decide)
  · rw [heq]
    show strContains (String.mk (List.replicate 10000 'a') ++ "\n") "<!-- truncated -->" = false
    unfold strContains
    rw [hdata]
    have h3 : ("<!-- truncated -->").data = '<' :: ("!-- truncated -->".data) := by decide
    rw [h3]
    apply listContainsSub_eq_false
    intro x hx
    rcases List.mem_append.mp hx with h4 | h4
    · rw [List.eq_of_mem_replicate h4]; decide
    · rw [List.mem_singleton.mp h4]; decide

/-- C3 amended: when the probe body exceeds 10000 bytes, the standalone
recorder stores the first 10000 bytes plus a bare newline (10001 bytes in
all), while the observer's capture path stores the first 10000 bytes plus the
`\n<!-- truncated -->` marker; bodies of at most 10000 bytes are stored whole. -/
theorem standalone_cap_and_newline (body : String) (h : body.length > 10000) :
    standaloneRespBody (some body) = some (String.mk (body.data.take 10000) ++ "\n")
    ∧ capturedRespBody (some body)
        = some (String.mk (body.data.take 10000) ++ "\n<!-- truncated -->")
    ∧ ((standaloneRespBody (some body)).getD "").length = 10001 := by
  have h1 : standaloneRespBody (some body)
      = some (String.mk (body.data.take 10000) ++ "\n") := by
    simp only [standaloneRespBody]
    rw [if_pos h]
  have h2 : capturedRespBody (some body)
      = some (String.mk (body.data.take 10000) ++ "\n<!-- truncated -->") := by
    simp only [capturedRespBody]
    rw [if_pos h]
  refine ⟨h1, h2, ?_⟩
  rw [h1]
  show (String.mk (body.data.take 10000) ++ "\n").length = 10001
  have hd : body.length = body.data.length := rfl
  have hlen : (body.data.take 10000).length = 10000 := by
    rw [List.length_take]
    omega
  have hmk : (String.mk (body.data.take 10000)).length = 10000 := hlen
  rw [String.length_append, hmk]
  rfl

theorem standalone_cap_and_newline_witness :
    longBody.length > 10000
    ∧ standaloneRespBody (some longBody)
        = some (String.mk (longBody.data.take 10000) ++ "\n") := by
  have h : longBody.length > 10000 := by
    show (List.replicate 10001 'a').length > 10000
    rw [List.length_replicate]
    norm_num
  exact ⟨h, (standalone_cap_and_newline longBody h).1⟩

/-! ## Claim C10: standalone API records -/

/-- Every recorded discovered API is a probe-discovery record: method GET and
`page_url == "crawler_discovery"`. -/
def discoveredShape (st : ScanState) : Prop :=
  ∀ api ∈ st.discovered_apis, api.method = "GET" ∧ api.page_url = some "crawler_discovery"

theorem recordStandaloneApi_discoveredShape {st : ScanState} (url : String) (resp : ProbeResp)
    (h : discoveredShape st) : discoveredShape (recordStandaloneApi st url resp) := by
  intro api hapi
  simp only [recordStandaloneApi] at hapi
  rcases List.mem_append.mp hapi with h1 | h1
  · exact h api h1
  · rw [List.mem_singleton.mp h1]
    exact ⟨rfl, rfl⟩

theorem renderStep_discoveredShape (w : World) (cfg : ScanConfig) (url : String)
    {st : ScanState} (h : discoveredShape st) :
    discoveredShape (renderStep w cfg url st).1 := by
  unfold renderStep
  dsimp only
  split
  · exact h
  · split
    · exact h
    · split
      · exact h
      · exact h

theorem crawlPage_discoveredShape (w : World) (cfg : ScanConfig) :
    ∀ (fuel : Nat) (url : String) (depth : Nat) (st : ScanState),
      discoveredShape st → discoveredShape (crawlPage w cfg fuel url depth st) := by
  intro fuel
  induction fuel with
  | zero => intro url depth st h; exact h
  | succ n ih =>
    intro url depth st h
    rw [crawlPage]
    dsimp only
    split
    · exact h
    split
    · exact h
    split
    · exact h
    split
    · split
      · exact recordStandaloneApi_discoveredShape _ _ h
      · split
        · exact recordStandaloneApi_discoveredShape _ _ h
        · exact foldl_preserve (fun s a hs => ih a (depth + 1) s hs) _ _
            (renderStep_discoveredShape w cfg url h)
    · exact foldl_preserve (fun s a hs => ih a (depth + 1) s hs) _ _
        (renderStep_discoveredShape w cfg url h)

/-- C10: probe-discovered standalone APIs always carry method "GET" and
page_url "crawler_discovery"; `_record_standalone_api` appends them to
`SiteAsset.discovered_apis` and leaves `pages` (and every page's `api_calls`)
untouched. -/
theorem standalone_apis_shape_and_destination (w : World) (cfg : ScanConfig) (fuel : Nat) :
    (∀ api ∈ (scan w cfg fuel).discovered_apis,
        api.method = "GET" ∧ api.page_url = some "crawler_discovery")
    ∧ (∀ (st : ScanState) (url : String) (resp : ProbeResp),
        (recordStandaloneApi st url resp).discovered_apis
          = st.discovered_apis ++ [mkStandaloneApi st.next_api_id url resp]
        ∧ (recordStandaloneApi st url resp).pages = st.pages
        ∧ (mkStandaloneApi st.next_api_id url resp).method = "GET"
        ∧ (mkStandaloneApi st.next_api_id url resp).page_url = some "crawler_discovery") := by
  constructor
  · exact crawlPage_discoveredShape w cfg fuel cfg.base_url 0 initScanState
      (by intro api hapi; cases hapi)
  · intro st url resp
    exact ⟨rfl, rfl, rfl, rfl⟩

/-! ## Claim C2: a 403 probe is classified API, recorded, never rendered -/

theorem self_mem_setInsert (l : List String) (x : String) : x ∈ setInsert l x := by
  unfold setInsert
  split
  · next hc => exact List.elem_iff.mp hc
  · exact List.mem_append_right _ (List.mem_singleton_self x)

/-- C2: whenever the classification probe of a reachable URL answers 403, the
crawl records the URL as auth-required, appends a standalone discovered-API
entry for it, and returns before the render step — `pages` is untouched,
whatever the probe's content-type or body were. -/
theorem probe_403_is_api_never_rendered (w : World) (cfg : ScanConfig)
    (fuel depth : Nat) (url : String) (st : ScanState) (probeResp : ProbeResp)
    (hprobe : w.probe url = some probeResp) (h403 : probeResp.status = 403)
    (hdepth : ¬ depth > cfg.max_depth) (hvis : st.visited.contains url = false)
    (hsv : shouldVisit cfg url = true) :
    crawlPage w cfg (fuel + 1) url depth st
      = recordStandaloneApi
          { st with visited := setInsert st.visited url
                    auth_required_urls := setInsert st.auth_required_urls url }
          url probeResp
    ∧ url ∈ (crawlPage w cfg (fuel + 1) url depth st).auth_required_urls
    ∧ (∃ api ∈ (crawlPage w cfg (fuel + 1) url depth st).discovered_apis, api.url = url)
    ∧ (crawlPage w cfg (fuel + 1) url depth st).pages = st.pages := by
  have heq : crawlPage w cfg (fuel + 1) url depth st
      = recordStandaloneApi
          { st with visited := setInsert st.visited url
                    auth_required_urls := setInsert st.auth_required_urls url }
          url probeResp := by
    rw [crawlPage]
    dsimp only
    rw [if_neg hdepth]
    rw [if_neg (by rw [hvis]; exact Bool.false_ne_true)]
    rw [if_neg (by rw [hsv]; simp)]
    rw [hprobe]
    dsimp only
    rw [if_pos (Or.inr h403)]
  refine ⟨heq, ?_, ?_, ?_⟩
  · rw [heq]
    show url ∈ setInsert st.auth_required_urls url
    exact self_mem_setInsert _ _
  · rw [heq]
    refine ⟨mkStandaloneApi st.next_api_id url probeResp, ?_, rfl⟩
    simp only [recordStandaloneApi]
    exact List.mem_append_right _ (List.mem_singleton_self _)
  · rw [heq]
    rfl

/-- A probe response that answers 403 while claiming to serve ordinary HTML. -/
def authProbeResp : ProbeResp :=
  { status := 403, headers := [("content-type", "text/html")],
    body := some "<html><body>Denied</body></html>" }

def authWorld : World :=
  { probe := fun _ => some authProbeResp
    render := fun _ => none
    fetch_script := fun _ => none
    clean_html := fun s => s }

def authCfg : ScanConfig := mkScanConfig "http://app.test" 2 true

theorem probe_403_is_api_never_rendered_witness :
    "http://app.test" ∈
        (crawlPage authWorld authCfg 3 "http://app.test" 0 initScanState).auth_required_urls
    ∧ (∃ api ∈ (crawlPage authWorld authCfg 3 "http://app.test" 0 initScanState).discovered_apis,
        api.url = "http://app.test")
    ∧ (crawlPage authWorld authCfg 3 "http://app.test" 0 initScanState).pages
        = initScanState.pages := by
  have h := probe_403_is_api_never_rendered authWorld authCfg 2 0 "http://app.test"
    initScanState authProbeResp rfl rfl (by decide) (by decide) (by decide)
  exact ⟨h.2.1, h.2.2.1, h.2.2.2⟩

/-! ## Claim C8: static-asset / length filtering of frontier candidates -/

/-- A page whose inline script mentions an absolute same-origin `.png` URL. -/
def pngScriptCode : String := "fetch(\"http://png.test/logo.png\")"

def pngRender : RenderResult :=
  { final_url := "http://png.test"
    resp_status := 200
    resp_headers := [("content-type", "text/html")]
    title := "Home"
    html := "<html><body></body></html>"
    body_inner_html := none
    dom_inputs := []
    editable_ids := []
    raw_clickables := []
    ext_scripts := []
    inline_scripts := [{ code := pngScriptCode, script_type := none }]
    captured := []
    anchor_hrefs := []
    cookies := []
    local_storage := []
    session_storage := []
    comments := []}

def pngWorld : World :=
  { probe := fun _ => none
    render := fun u => if u = "http://png.test" then some pngRender else none
    fetch_script := fun _ => none
    clean_html := fun s => s }

def pngCfg : ScanConfig := mkScanConfig "http://png.test" 2 true

/-- C8 counterexample: a full-absolute-URL regex match ending in `.png` is
*not* filtered — it survives `extract_links`, passes `_should_visit`, is
returned among the page's frontier candidates, and is crawled (enters
`visited`).  Only quoted-path candidates go through `_is_noise`. -/
theorem png_full_url_candidate_is_enqueued :
    "http://png.test/logo.png" ∈ extractLinks pngScriptCode "http://png.test"
    ∧ "http://png.test/logo.png" ∈
        (collectLinks pngWorld pngCfg "http://png.test" []
          (extractScripts pngCfg pngRender) []).1
    ∧ "http://png.test/logo.png" ∈
        (crawlPage pngWorld pngCfg 3 "http://png.test" 0 initScanState).visited := by
  refine ⟨?_, ?_, ?_⟩ <;> decide

theorem lastDotSuffix_of_ends_png (q : String) (h : strEnds q ".png" = true) :
    lastDotSuffix q = some ".png" := by
  unfold strEnds at h
  have hsuf : ".png".data <:+ q.data := List.isSuffixOf_iff_suffix.mp h
  obtain ⟨l, hl⟩ := hsuf
  have hdots : (".png".data : List Char) = ['.', 'p', 'n', 'g'] := by decide
  rw [hdots] at hl
  unfold lastDotSuffix
  have hcontains : q.data.contains '.' = true :=
    List.elem_iff.mpr (by rw [← hl]; exact List.mem_append_right _ (by decide))
  rw [if_pos hcontains]
  have hrev : q.data.reverse = 'g' :: 'n' :: 'p' :: '.' :: l.reverse := by
    rw [← hl, List.reverse_append]
    rfl
  rw [hrev]
  rw [List.takeWhile_cons, if_pos (by decide), List.takeWhile_cons, if_pos (by decide),
      List.takeWhile_cons, if_pos (by decide), List.takeWhile_cons, if_neg (by decide)]
  rfl

/-- C8 amended: the minimum-length and static-asset-extension filters apply to
the quoted-path candidate source only: a quoted-path candidate ending in
`.png` (case-insensitively) or shorter than 2 characters is noise and
contributes no link, whatever the base URL.  (DOM-anchor and full-URL
candidates bypass `_is_noise`, as the counterexample shows.) -/
theorem png_or_short_quoted_path_never_contributes (p : String)
    (hp : strEnds (pyLower p) ".png" = true ∨ p.length < 2) :
    isNoise p = true ∧ ∀ base : String, quotedPathLink base p = none := by
  have hlen : (pyLower p).length = p.length := by
    show (p.data.map Char.toLower).length = p.data.length
    rw [List.length_map]
  have hn : isNoise p = true := by
    unfold isNoise
    dsimp only
    rcases hp with hpng | hshort
    · split
      · rfl
      · split
        · rfl
        · rw [lastDotSuffix_of_ends_png _ hpng]
          rw [if_pos (by decide)]
    · rw [if_pos (by rw [hlen]; exact hshort)]
  refine ⟨hn, fun base => ?_⟩
  unfold quotedPathLink
  rw [if_pos hn]

theorem png_or_short_quoted_path_never_contributes_witness :
    (strEnds (pyLower "/logo.png") ".png" = true ∨ ("/logo.png" : String).length < 2)
    ∧ isNoise "/logo.png" = true
    ∧ quotedPathLink "http://png.test" "/logo.png" = none := by
  have h := png_or_short_quoted_path_never_contributes "/logo.png" (Or.inl (by decide))
  exact ⟨Or.inl (by decide), h.1, h.2 "http://png.test"⟩

/-! ## Claims C5 and C6: submission correlation -/

theorem mem_keys_dictSet (m : List (String × Nat)) (k' : String) (v : Nat) (k : String)
    (h : k ∈ m.map Prod.fst) : k ∈ (dictSet m k' v).map Prod.fst := by
  induction m with
  | nil => cases h
  | cons p rest ih =>
    unfold dictSet
    rcases List.mem_cons.mp h with h1 | h1
    · split
      · next heq => simp only [List.map_cons, List.mem_cons]; left; rw [h1, heq]
      · simp only [List.map_cons, List.mem_cons]; left; exact h1
    · split
      · simp only [List.map_cons, List.mem_cons]; right; exact h1
      · simp only [List.map_cons, List.mem_cons]; right; exact ih h1

theorem self_mem_keys_dictSet (m : List (String × Nat)) (k : String) (v : Nat) :
    k ∈ (dictSet m k v).map Prod.fst := by
  induction m with
  | nil => simp [dictSet]
  | cons p rest ih =>
    unfold dictSet
    split
    · simp
    · simp only [List.map_cons, List.mem_cons]; right; exact ih

theorem matchStep_mono (params : List String) (acc : List Nat × List (String × Nat))
    (i : InputField) :
    (∀ x, x ∈ acc.1 → x ∈ (matchStep params acc i).1)
    ∧ (∀ k, k ∈ acc.2.map Prod.fst → k ∈ (matchStep params acc i).2.map Prod.fst) := by
  unfold matchStep
  constructor
  · intro x hx
    split
    · split
      · exact List.mem_append_left _ hx
      · exact hx
    · exact hx
  · intro k hk
    split
    · split
      · exact mem_keys_dictSet _ _ _ _ hk
      · exact hk
    · exact hk

theorem matchFold_mono (params : List String) (l : List InputField) :
    ∀ (acc : List Nat × List (String × Nat)) (x : Nat) (k : String),
      (x ∈ acc.1 → x ∈ (l.foldl (matchStep params) acc).1)
      ∧ (k ∈ acc.2.map Prod.fst → k ∈ (l.foldl (matchStep params) acc).2.map Prod.fst) := by
  induction l with
  | nil => intro acc x k; exact ⟨id, id⟩
  | cons i t ih =>
    intro acc x k
    constructor
    · intro hx
      exact (ih (matchStep params acc i) x k).1 ((matchStep_mono params acc i).1 x hx)
    · intro hk
      exact (ih (matchStep params acc i) x k).2 ((matchStep_mono params acc i).2 k hk)

/-- The core of the correlation loop: an input whose (nonempty) name occurs
among the discovered parameters ends up in `related_inputs` and its name among
the `input_map` keys. -/
theorem matchInputs_mem (inputs : List InputField) (params : List String)
    (inp : InputField) (n : String) (hmem : inp ∈ inputs) (hname : inp.name = some n)
    (hne : n ≠ "") (hp : n ∈ params) :
    inp.internal_id ∈ (matchInputs inputs params).1
    ∧ n ∈ (matchInputs inputs params).2.map Prod.fst := by
  unfold matchInputs
  suffices hgen : ∀ (acc : List Nat × List (String × Nat)),
      inp.internal_id ∈ (inputs.foldl (matchStep params) acc).1
      ∧ n ∈ (inputs.foldl (matchStep params) acc).2.map Prod.fst from hgen ([], [])
  induction inputs with
  | nil => cases hmem
  | cons i t ih =>
    intro acc
    rcases List.mem_cons.mp hmem with h1 | h1
    · subst h1
      have hstep1 : (matchStep params acc inp).1 = acc.1 ++ [inp.internal_id] := by
        unfold matchStep
        rw [hname]
        dsimp only
        rw [if_pos ⟨hne, List.elem_iff.mpr hp⟩]
      have hstep2 : n ∈ (matchStep params acc inp).2.map Prod.fst := by
        unfold matchStep
        rw [hname]
        dsimp only
        rw [if_pos ⟨hne, List.elem_iff.mpr hp⟩]
        exact self_mem_keys_dictSet _ _ _
      constructor
      · rw [List.foldl_cons]
        exact (matchFold_mono params t _ inp.internal_id n).1
          (by rw [hstep1]; exact List.mem_append_right _ (by simp))
      · rw [List.foldl_cons]
        exact (matchFold_mono params t _ inp.internal_id n).2 hstep2
    · rw [List.foldl_cons]
      exact ih h1 (matchStep params acc i)

def usernameInput : InputField :=
  { internal_id := 1, page_url := "http://app.test/login", tag := "input",
    name := some "username", input_type := some "text", dom_id := none,
    placeholder := none, css_selector := "input[name=\"username\"]", meta := [],
    source := "dom" }

def passwordInput : InputField :=
  { internal_id := 2, page_url := "http://app.test/login", tag := "input",
    name := some "password", input_type := some "password", dom_id := none,
    placeholder := none, css_selector := "input[name=\"password\"]", meta := [],
    source := "dom" }

/-- The login page's two inputs. -/
def loginInputs : List InputField := [usernameInput, passwordInput]

/-- An observed login call whose JSON body carries the two field names. -/
def loginApi : ApiCall :=
  { id := 1, url := "http://app.test/api/login", method := "POST",
    resource_type := "xhr",
    request_body := some "\x7b\"username\":\"a\",\"password\":\"b\"\x7d",
    page_url := some "http://app.test/login", request_headers := [],
    request_cookies := [], response_status := some 200, response_headers := [],
    response_body := none }

/-- C5: on the username/password page the generated `SubmissionUnit` maps each
parameter name to the matching input's id; and in general any input whose
(nonempty) name equals a parameter discovered from the JSON body, form body or
query string lands in `related_input_ids` with its name among the `input_map`
keys. -/
theorem input_map_matches_discovered_params :
    ((mkSubmission "http://app.test/login" loginInputs loginApi 1).input_map
        = [("username", 1), ("password", 2)]
      ∧ (mkSubmission "http://app.test/login" loginInputs loginApi 1).related_input_ids
        = [1, 2])
    ∧ ∀ (page_url : String) (inputs : List InputField) (api : ApiCall) (id : Nat)
        (inp : InputField) (n : String),
        inp ∈ inputs → inp.name = some n → n ≠ "" → n ∈ paramsFound api →
        inp.internal_id ∈ (mkSubmission page_url inputs api id).related_input_ids
        ∧ n ∈ (mkSubmission page_url inputs api id).input_map.map Prod.fst := by
  constructor
  · exact ⟨by decide, by decide⟩
  · intro page_url inputs api id inp n hmem hname hne hp
    have h := matchInputs_mem inputs (paramsFound api) inp n hmem hname hne hp
    have hnonempty : (matchInputs inputs (paramsFound api)).1 ≠ [] := by
      intro he
      rw [he] at h
      exact absurd h.1 (List.not_mem_nil _)
    unfold mkSubmission
    dsimp only
    rw [if_neg (fun hc => hnonempty hc.1)]
    exact h

theorem input_map_matches_discovered_params_witness :
    usernameInput.internal_id
        ∈ (mkSubmission "http://app.test/login" loginInputs loginApi 5).related_input_ids
    ∧ "username"
        ∈ (mkSubmission "http://app.test/login" loginInputs loginApi 5).input_map.map
            Prod.fst :=
  (input_map_matches_discovered_params).2 "http://app.test/login" loginInputs loginApi 5
    usernameInput "username" (by decide) rfl (by decide) (by decide)

/-! Claim C6: the all-inputs fallback for unmatched POST/PUT/PATCH calls. -/

theorem matchStep_skip (params : List String) (acc : List Nat × List (String × Nat))
    (i : InputField) (h : ∀ n, i.name = some n → n ≠ "" → n ∉ params) :
    matchStep params acc i = acc := by
  unfold matchStep
  cases hn : i.name with
  | none => rfl
  | some n =>
    dsimp only
    rw [if_neg]
    intro ⟨hne, hc⟩
    exact h n hn hne (List.elem_iff.mp hc)

theorem matchInputs_nil_of_nomatch (inputs : List InputField) (params : List String)
    (h : ∀ inp ∈ inputs, ∀ n, inp.name = some n → n ≠ "" → n ∉ params) :
    matchInputs inputs params = ([], []) := by
  unfold matchInputs
  suffices hgen : ∀ acc, inputs.foldl (matchStep params) acc = acc from hgen ([], [])
  induction inputs with
  | nil => intro acc; rfl
  | cons i t ih =>
    intro acc
    rw [List.foldl_cons, matchStep_skip params acc i (h i (by simp))]
    exact ih (fun inp hmem => h inp (List.mem_cons_of_mem _ hmem)) acc

/-- C6: when no input name matched any discovered parameter and the call's
method is POST/PUT/PATCH and the page has at least one input, the
`SubmissionUnit` relates *all* the page's inputs and its `input_map` is empty. -/
theorem unmatched_post_relates_all_inputs (page_url : String) (inputs : List InputField)
    (api : ApiCall) (id : Nat)
    (hnomatch : ∀ inp ∈ inputs, ∀ n, inp.name = some n → n ≠ "" → n ∉ paramsFound api)
    (hmethod : api.method = "POST" ∨ api.method = "PUT" ∨ api.method = "PATCH")
    (hinputs : inputs ≠ []) :
    (mkSubmission page_url inputs api id).related_input_ids = inputs.map (·.internal_id)
    ∧ (mkSubmission page_url inputs api id).input_map = [] := by
  have hm := matchInputs_nil_of_nomatch inputs (paramsFound api) hnomatch
  unfold mkSubmission
  dsimp only
  rw [hm]
  rw [if_pos ⟨rfl, hmethod, hinputs⟩]
  exact ⟨rfl, rfl⟩

/-- An API call whose discovered parameters ("q" from the query string) match
no input on the page. -/
def feedbackApi : ApiCall :=
  { id := 2, url := "http://app.test/api/save?q=1", method := "PUT",
    resource_type := "fetch", request_body := some "payload", page_url := none,
    request_headers := [], request_cookies := [], response_status := some 204,
    response_headers := [], response_body := none }

theorem unmatched_post_relates_all_inputs_witness :
    (mkSubmission "http://app.test/login" loginInputs feedbackApi 2).related_input_ids
        = [1, 2]
    ∧ (mkSubmission "http://app.test/login" loginInputs feedbackApi 2).input_map = [] := by
  have h := unmatched_post_relates_all_inputs "http://app.test/login" loginInputs
    feedbackApi 2 (by decide) (by decide) (by decide)
  exact ⟨h.1, h.2⟩

/-! ## Claim C1: off-origin URLs never reach visited, pages, or the frontier -/

theorem not_mem_setInsert {l : List String} {x y : String}
    (h1 : y ∉ l) (h2 : y ≠ x) : y ∉ setInsert l x := by
  intro hm
  rcases mem_of_mem_setInsert hm with h | h
  · exact h1 h
  · exact h2 h

theorem mem_keys_insertPage {ps : List (String × PageAsset)} {url : String}
    {pa : PageAsset} {x : String}
    (h : x ∈ (insertPage ps url pa).map Prod.fst) : x ∈ ps.map Prod.fst ∨ x = url := by
  induction ps with
  | nil =>
    simp only [insertPage, List.map_cons, List.map_nil, List.mem_cons] at h
    rcases h with h | h
    · exact Or.inr h
    · cases h
  | cons p rest ih =>
    unfold insertPage at h
    split at h
    · next heq =>
      simp only [List.map_cons, List.mem_cons] at h ⊢
      rcases h with h | h
      · exact Or.inl (Or.inl h)
      · exact Or.inl (Or.inr h)
    · simp only [List.map_cons, List.mem_cons] at h ⊢
      rcases h with h | h
      · exact Or.inl (Or.inl h)
      · rcases ih h with h1 | h1
        · exact Or.inl (Or.inr h1)
        · exact Or.inr h1

/-- Off-origin with the restriction on means `_should_visit` rejects. -/
theorem shouldVisit_false_off_origin (cfg : ScanConfig) (u : String)
    (hso : cfg.same_origin_only = true)
    (hfail : ((pyUrlparse u).scheme, (pyUrlparse u).netloc) ≠ baseOrigin cfg) :
    shouldVisit cfg u = false := by
  unfold shouldVisit
  dsimp only
  split
  · rfl
  · rw [if_pos ⟨hso, hfail⟩]

theorem guarded_fold_shouldVisit (cfg : ScanConfig) (links : List String)
    (acc : List String) (hacc : ∀ x ∈ acc, shouldVisit cfg x = true) :
    ∀ x ∈ links.foldl
        (fun acc link => if shouldVisit cfg link then setInsert acc link else acc) acc,
      shouldVisit cfg x = true := by
  refine @foldl_preserve String (List String)
    (fun l => ∀ x ∈ l, shouldVisit cfg x = true) _ ?_ links acc hacc
  intro s a hs x hx
  by_cases hsv : shouldVisit cfg a = true
  · rw [if_pos hsv] at hx
    rcases mem_of_mem_setInsert hx with h1 | h1
    · exact hs x h1
    · rw [h1]; exact hsv
  · rw [if_neg hsv] at hx
    exact hs x hx

theorem scanOneScript_shouldVisit (w : World) (cfg : ScanConfig) (currentUrl : String)
    (found processed : List String) (script : ScriptAsset)
    (h : ∀ x ∈ found, shouldVisit cfg x = true) :
    ∀ x ∈ (scanOneScript w cfg currentUrl found processed script).1,
      shouldVisit cfg x = true := by
  unfold scanOneScript
  dsimp only
  split
  · exact guarded_fold_shouldVisit cfg _ found h
  · exact h

/-- Every frontier candidate returned by `_collect_links` passes `_should_visit`. -/
theorem mem_collectLinks_shouldVisit (w : World) (cfg : ScanConfig) (currentUrl : String)
    (anchors : List String) (scripts : List ScriptAsset) (processed : List String) :
    ∀ x ∈ (collectLinks w cfg currentUrl anchors scripts processed).1,
      shouldVisit cfg x = true := by
  unfold collectLinks
  dsimp only
  have hanchors : ∀ x ∈ anchors.foldl
      (fun acc href =>
        if href ≠ "" then
          if shouldVisit cfg (pyUrljoin currentUrl href) then
            setInsert acc (pyUrljoin currentUrl href)
          else acc
        else acc) [],
      shouldVisit cfg x = true := by
    refine @foldl_preserve String (List String)
      (fun l => ∀ x ∈ l, shouldVisit cfg x = true) _ ?_ anchors [] (by intro x hx; cases hx)
    intro s a hs x hx
    split at hx
    · by_cases hsv : shouldVisit cfg (pyUrljoin currentUrl a) = true
      · rw [if_pos hsv] at hx
        rcases mem_of_mem_setInsert hx with h1 | h1
        · exact hs x h1
        · rw [h1]; exact hsv
      · rw [if_neg hsv] at hx
        exact hs x hx
    · exact hs x hx
  refine @foldl_preserve ScriptAsset (List String × List String)
    (fun acc => ∀ x ∈ acc.1, shouldVisit cfg x = true) _ ?_ scripts _ hanchors
  intro s a hs
  exact scanOneScript_shouldVisit w cfg currentUrl s.1 s.2 a hs

theorem renderStep_off_origin_pres (w : World) (cfg : ScanConfig) (u url : String)
    (hune : u ≠ url) {st : ScanState}
    (h : u ∉ st.visited ∧ u ∉ st.pages.map Prod.fst) :
    u ∉ (renderStep w cfg url st).1.visited
    ∧ u ∉ (renderStep w cfg url st).1.pages.map Prod.fst := by
  unfold renderStep
  dsimp only
  split
  · exact h
  · split
    · exact h
    · split
      · exact h
      · refine ⟨h.1, ?_⟩
        intro hmem
        rcases mem_keys_insertPage hmem with h1 | h1
        · exact h.2 h1
        · exact hune h1

theorem crawlPage_off_origin_pres (w : World) (cfg : ScanConfig) (u : String)
    (hsv : shouldVisit cfg u = false) :
    ∀ (fuel : Nat) (url : String) (depth : Nat) (st : ScanState),
      (u ∉ st.visited ∧ u ∉ st.pages.map Prod.fst) →
      u ∉ (crawlPage w cfg fuel url depth st).visited
      ∧ u ∉ (crawlPage w cfg fuel url depth st).pages.map Prod.fst := by
  intro fuel
  induction fuel with
  | zero => intro url depth st h; exact h
  | succ n ih =>
    intro url depth st h
    rw [crawlPage]
    dsimp only
    split
    · exact h
    split
    · exact h
    split
    · exact h
    next hnsv =>
      have hsvurl : shouldVisit cfg url = true := by
        by_cases hc : shouldVisit cfg url = true
        · exact hc
        · exact absurd hc hnsv
      have hune : u ≠ url := by
        intro he
        rw [he, hsvurl] at hsv
        cases hsv
      have h' : u ∉ setInsert st.visited url ∧ u ∉ st.pages.map Prod.fst :=
        ⟨not_mem_setInsert h.1 hune, h.2⟩
      split
      · split
        · exact h'
        · split
          · exact h'
          · exact foldl_preserve (fun s a hs => ih a (depth + 1) s hs) _ _
              (renderStep_off_origin_pres w cfg u url hune h')
      · exact foldl_preserve (fun s a hs => ih a (depth + 1) s hs) _ _
          (renderStep_off_origin_pres w cfg u url hune h')

/-- C1: with the same-origin restriction on, a URL whose scheme+netloc differ
from the base origin is never added to `visited`, never keyed into `pages`,
and never appears among the frontier candidates `_collect_links` returns. -/
theorem off_origin_never_visited_stored_or_enqueued (w : World) (cfg : ScanConfig)
    (u : String) (hso : cfg.same_origin_only = true)
    (hfail : ((pyUrlparse u).scheme, (pyUrlparse u).netloc) ≠ baseOrigin cfg)
    (fuel : Nat) (url : String) (depth : Nat) (st : ScanState)
    (hv : u ∉ st.visited) (hp : u ∉ st.pages.map Prod.fst) :
    (u ∉ (crawlPage w cfg fuel url depth st).visited
      ∧ u ∉ (crawlPage w cfg fuel url depth st).pages.map Prod.fst)
    ∧ ∀ (currentUrl : String) (anchors : List String) (scripts : List ScriptAsset)
        (processed : List String),
        u ∉ (collectLinks w cfg currentUrl anchors scripts processed).1 := by
  have hsv : shouldVisit cfg u = false := shouldVisit_false_off_origin cfg u hso hfail
  constructor
  · exact crawlPage_off_origin_pres w cfg u hsv fuel url depth st ⟨hv, hp⟩
  · intro currentUrl anchors scripts processed hmem
    have := mem_collectLinks_shouldVisit w cfg currentUrl anchors scripts processed u hmem
    rw [hsv] at this
    cases this

def offOriginUrl : String := "http://other.test/x"

/-- A base page whose anchors include an off-origin link. -/
def anchorRender : RenderResult :=
  { final_url := "http://app.test"
    resp_status := 200
    resp_headers := [("content-type", "text/html")]
    title := "Home"
    html := "<html><body></body></html>"
    body_inner_html := none
    dom_inputs := []
    editable_ids := []
    raw_clickables := []
    ext_scripts := []
    inline_scripts := []
    captured := []
    anchor_hrefs := ["http://other.test/x", "/ok"]
    cookies := []
    local_storage := []
    session_storage := []
    comments := [] }

def anchorWorld : World :=
  { probe := fun _ => none
    render := fun u => if u = "http://app.test" then some anchorRender else none
    fetch_script := fun _ => none
    clean_html := fun s => s }

def anchorCfg : ScanConfig := mkScanConfig "http://app.test" 2 true

theorem off_origin_never_visited_stored_or_enqueued_witness :
    (offOriginUrl ∉
        (crawlPage anchorWorld anchorCfg 3 "http://app.test" 0 initScanState).visited
      ∧ offOriginUrl ∉
        (crawlPage anchorWorld anchorCfg 3 "http://app.test" 0 initScanState).pages.map
          Prod.fst)
    ∧ offOriginUrl ∉
        (collectLinks anchorWorld anchorCfg "http://app.test"
          ["http://other.test/x", "/ok"] [] []).1 := by
  have h := off_origin_never_visited_stored_or_enqueued anchorWorld anchorCfg offOriginUrl
    rfl (by decide) 3 "http://app.test" 0 initScanState (List.not_mem_nil _)
    (List.not_mem_nil _)
  exact ⟨⟨h.1.1, h.1.2⟩, h.2 "http://app.test" ["http://other.test/x", "/ok"] [] []⟩

/-! ## Claim C4: input internal_ids are unique across the whole run -/

def pageInputIds (pa : PageAsset) : List Nat :=
  pa.inputs.map (·.internal_id)

/-- All input ids stored anywhere in the site asset. -/
def allInputIds (st : ScanState) : List Nat :=
  st.pages.flatMap (fun p => pageInputIds p.2)

/-- The id-counter invariant: every stored input id is below the next counter
value, and no id occurs twice. -/
def inputIdInv (st : ScanState) : Prop :=
  (∀ i ∈ allInputIds st, i < st.next_input_id) ∧ (allInputIds st).Nodup

theorem assignSeq_cons {α β : Type} (f : α → Nat → β) (n : Nat) (x : α) (rest : List α) :
    assignSeq f n (x :: rest)
      = (f x n :: (assignSeq f (n + 1) rest).1, (assignSeq f (n + 1) rest).2) := by
  rcases h : assignSeq f (n + 1) rest with ⟨l, n'⟩
  simp [assignSeq, h]

theorem assignSeq_snd {α β : Type} (f : α → Nat → β) (xs : List α) :
    ∀ n, (assignSeq f n xs).2 = n + xs.length := by
  induction xs with
  | nil => intro n; simp [assignSeq]
  | cons x t ih =>
    intro n
    rw [assignSeq_cons]
    dsimp only
    rw [ih (n + 1), List.length_cons]
    omega

theorem mkInputField_id (u : String) (s : RawInputSrc) (i : Nat) :
    (mkInputField u s i).internal_id = i := by
  cases s <;> rfl

theorem extractInputs_ids_aux (u : String) (xs : List RawInputSrc) :
    ∀ n, (assignSeq (mkInputField u) n xs).1.map (·.internal_id)
      = List.range' n xs.length := by
  induction xs with
  | nil => intro n; rfl
  | cons x t ih =>
    intro n
    rw [assignSeq_cons]
    dsimp only [List.map_cons]
    rw [mkInputField_id, ih (n + 1), List.length_cons, List.range'_succ n t.length 1]

/-- C4 core fact: `_extract_inputs` hands out exactly the consecutive counter
values starting at the current one, and advances the counter past them. -/
theorem extractInputs_ids (r : RenderResult) (page_url : String) (n : Nat) :
    (extractInputs r page_url n).1.map (·.internal_id)
      = List.range' n (inputsPlan r page_url).length
    ∧ (extractInputs r page_url n).2 = n + (inputsPlan r page_url).length :=
  ⟨extractInputs_ids_aux page_url (inputsPlan r page_url) n,
   assignSeq_snd (mkInputField page_url) (inputsPlan r page_url) n⟩

theorem mem_flatMap_insertPage {ps : List (String × PageAsset)} {url : String}
    {pa : PageAsset} {x : Nat}
    (h : x ∈ (insertPage ps url pa).flatMap (fun p => pageInputIds p.2)) :
    x ∈ ps.flatMap (fun p => pageInputIds p.2) ∨ x ∈ pageInputIds pa := by
  induction ps with
  | nil =>
    simp only [insertPage, List.flatMap_cons, List.flatMap_nil, List.append_nil] at h
    exact Or.inr h
  | cons p rest ih =>
    unfold insertPage at h
    split at h
    · rw [List.flatMap_cons] at h
      rcases List.mem_append.mp h with h1 | h1
      · exact Or.inr h1
      · exact Or.inl (by rw [List.flatMap_cons]; exact List.mem_append_right _ h1)
    · rw [List.flatMap_cons] at h
      rcases List.mem_append.mp h with h1 | h1
      · exact Or.inl (by rw [List.flatMap_cons]; exact List.mem_append_left _ h1)
      · rcases ih h1 with h2 | h2
        · exact Or.inl (by rw [List.flatMap_cons]; exact List.mem_append_right _ h2)
        · exact Or.inr h2

theorem nodup_flatMap_insertPage {ps : List (String × PageAsset)} {url : String}
    {pa : PageAsset}
    (hold : (ps.flatMap (fun p => pageInputIds p.2)).Nodup)
    (hpa : (pageInputIds pa).Nodup)
    (hdisj : ∀ x ∈ pageInputIds pa, x ∉ ps.flatMap (fun p => pageInputIds p.2)) :
    ((insertPage ps url pa).flatMap (fun p => pageInputIds p.2)).Nodup := by
  induction ps with
  | nil =>
    simp only [insertPage, List.flatMap_cons, List.flatMap_nil, List.append_nil]
    exact hpa
  | cons p rest ih =>
    rw [List.flatMap_cons] at hold
    rw [List.nodup_append] at hold
    unfold insertPage
    split
    · rw [List.flatMap_cons, List.nodup_append]
      refine ⟨hpa, hold.2.1, ?_⟩
      intro x hx
      have := hdisj x hx
      rw [List.flatMap_cons] at this
      exact fun hmem => this (List.mem_append_right _ hmem)
    · rw [List.flatMap_cons, List.nodup_append]
      refine ⟨hold.1, ?_, ?_⟩
      · refine ih hold.2.1 ?_
        intro x hx
        have := hdisj x hx
        rw [List.flatMap_cons] at this
        exact fun hmem => this (List.mem_append_right _ hmem)
      · intro x hx hmem
        rcases mem_flatMap_insertPage hmem with h1 | h1
        · exact hold.2.2 hx h1
        · exact hdisj x h1 (by rw [List.flatMap_cons]; exact List.mem_append_left _ hx)

theorem inputIdInv_after_store {st : ScanState} (h : inputIdInv st) (url : String)
    (pa : PageAsset) (k : Nat)
    (hids : pageInputIds pa = List.range' st.next_input_id k)
    (st2 : ScanState)
    (hpages : st2.pages = insertPage st.pages url pa)
    (hnext : st2.next_input_id = st.next_input_id + k) :
    inputIdInv st2 := by
  constructor
  · intro i hi
    rw [hnext]
    unfold allInputIds at hi
    rw [hpages] at hi
    rcases mem_flatMap_insertPage hi with h1 | h1
    · exact lt_of_lt_of_le (h.1 i h1) (Nat.le_add_right _ _)
    · rw [hids] at h1
      exact (List.mem_range'_1.mp h1).2
  · show (allInputIds st2).Nodup
    unfold allInputIds
    rw [hpages]
    apply nodup_flatMap_insertPage h.2
    · rw [hids]
      apply List.nodup_range'
      decide
    · intro x hx
      rw [hids] at hx
      have h1 := (List.mem_range'_1.mp hx).1
      intro hmem
      have h2 := h.1 x hmem
      omega

theorem renderStep_inputIdInv (w : World) (cfg : ScanConfig) (url : String)
    {st : ScanState} (h : inputIdInv st) : inputIdInv (renderStep w cfg url st).1 := by
  unfold renderStep
  dsimp only
  split
  · exact h
  next r heq =>
    split
    · exact h
    · split
      · exact h
      · exact inputIdInv_after_store h url
          (mkPageAsset w url r (extractScripts cfg r)
            (extractInputs r r.final_url st.next_input_id).1
            (extractClickables r r.final_url st.next_clickable_id).1
            (processCaptured st.next_api_id r.captured).1
            (buildSubmissions url (extractInputs r r.final_url st.next_input_id).1
              st.next_submission_id (processCaptured st.next_api_id r.captured).1).1)
          (inputsPlan r r.final_url).length
          (extractInputs_ids r r.final_url st.next_input_id).1 _ rfl
          (extractInputs_ids r r.final_url st.next_input_id).2

theorem crawlPage_inputIdInv (w : World) (cfg : ScanConfig) :
    ∀ (fuel : Nat) (url : String) (depth : Nat) (st : ScanState),
      inputIdInv st → inputIdInv (crawlPage w cfg fuel url depth st) := by
  intro fuel
  induction fuel with
  | zero => intro url depth st h; exact h
  | succ n ih =>
    intro url depth st h
    rw [crawlPage]
    dsimp only
    split
    · exact h
    split
    · exact h
    split
    · exact h
    split
    · split
      · exact h
      · split
        · exact h
        · exact foldl_preserve (fun s a hs => ih a (depth + 1) s hs) _ _
            (renderStep_inputIdInv w cfg url h)
    · exact foldl_preserve (fun s a hs => ih a (depth + 1) s hs) _ _
        (renderStep_inputIdInv w cfg url h)

theorem scanAuthenticated_inputIdInv (w : World) (cfg : ScanConfig) (fuel : Nat)
    {st : ScanState} (h : inputIdInv st) :
    inputIdInv (scanAuthenticated w cfg fuel st) := by
  unfold scanAuthenticated
  refine @foldl_preserve String ScanState inputIdInv _ ?_ _ st h
  intro s a hs
  exact crawlPage_inputIdInv w cfg fuel a 0 _ (by exact hs)

/-- C4: across a whole run — the unauthenticated scan followed by the
authenticated re-scan, which reuses the same counters — no two stored
`InputField`s share an `internal_id`; and `_extract_inputs` always hands out
exactly the consecutive counter values from the current counter, advancing it
past them (ids are never reused). -/
theorem input_ids_unique_across_run (w1 w2 : World) (cfg : ScanConfig)
    (fuel1 fuel2 : Nat) :
    (allInputIds (scanAuthenticated w2 cfg fuel2 (scan w1 cfg fuel1))).Nodup
    ∧ ∀ (r : RenderResult) (page_url : String) (n : Nat),
        (extractInputs r page_url n).1.map (·.internal_id)
          = List.range' n (inputsPlan r page_url).length
        ∧ (extractInputs r page_url n).2 = n + (inputsPlan r page_url).length := by
  constructor
  · have hinit : inputIdInv initScanState :=
      ⟨(fun i hi => by cases hi), List.nodup_nil⟩
    exact (scanAuthenticated_inputIdInv w2 cfg fuel2
      (crawlPage_inputIdInv w1 cfg fuel1 cfg.base_url 0 initScanState hinit)).2
  · exact extractInputs_ids

/-- Phase-1 world: the base page holds one input and links to `/admin`, which
probes 403 (auth-required). -/
def c4Render1 : RenderResult :=
  { final_url := "http://c4.test"
    resp_status := 200
    resp_headers := [("content-type", "text/html")]
    title := "Home"
    html := "<html><body></body></html>"
    body_inner_html := none
    dom_inputs := [{ tag := "input", dom_id := none, name := some "q",
                     input_type := some "text", placeholder := none }]
    editable_ids := []
    raw_clickables := []
    ext_scripts := []
    inline_scripts := []
    captured := []
    anchor_hrefs := ["/admin"]
    cookies := []
    local_storage := []
    session_storage := []
    comments := [] }

def c4World1 : World :=
  { probe := fun u =>
      if u = "http://c4.test/admin" then
        some { status := 403, headers := [], body := some "denied" }
      else none
    render := fun u => if u = "http://c4.test" then some c4Render1 else none
    fetch_script := fun _ => none
    clean_html := fun s => s }

/-- Phase-2 world: `/admin` now renders, with one more input. -/
def c4Render2 : RenderResult :=
  { final_url := "http://c4.test/admin"
    resp_status := 200
    resp_headers := [("content-type", "text/html")]
    title := "Admin"
    html := "<html><body></body></html>"
    body_inner_html := none
    dom_inputs := [{ tag := "input", dom_id := none, name := some "token",
                     input_type := some "text", placeholder := none }]
    editable_ids := []
    raw_clickables := []
    ext_scripts := []
    inline_scripts := []
    captured := []
    anchor_hrefs := []
    cookies := []
    local_storage := []
    session_storage := []
    comments := [] }

def c4World2 : World :=
  { probe := fun _ => none
    render := fun u => if u = "http://c4.test/admin" then some c4Render2 else none
    fetch_script := fun _ => none
    clean_html := fun s => s }

def c4Cfg : ScanConfig := mkScanConfig "http://c4.test" 2 true

/-- A concrete two-phase run: the authenticated re-scan reuses the counters,
so the input found on the re-scanned page gets id 2, not 1 — the invariant of
`input_ids_unique_across_run` is not vacuous. -/
theorem input_ids_continue_across_rescan :
    allInputIds (scanAuthenticated c4World2 c4Cfg 3 (scan c4World1 c4Cfg 3)) = [1, 2]
    ∧ (scan c4World1 c4Cfg 3).auth_required_urls = ["http://c4.test/admin"] := by
  constructor <;> decide
/-! ## Claim C9: the distiller is deterministic, but not idempotent -/

theorem tokenizeHtml_nil : ∀ fuel, tokenizeHtml fuel [] = [] := by
  intro fuel
  cases fuel <;> rfl

/-- A chunk of markup-free text tokenizes to a single text token. -/
theorem tokenizeHtml_text (cs : List Char) (fuel : Nat) (hne : cs ≠ [])
    (h : ∀ c ∈ cs, c ≠ '<') :
    tokenizeHtml (fuel + 1) cs = [HTok.text (String.mk cs)] := by
  cases cs with
  | nil => exact absurd rfl hne
  | cons c0 cs0 =>
    rw [tokenizeHtml.eq_def]
    dsimp only
    rw [if_neg (h c0 (by simp))]
    have ht : (c0 :: cs0).takeWhile (· ≠ '<') = c0 :: cs0 := by
      rw [List.takeWhile_eq_self_iff]
      intro a ha
      simp [h a ha]
    have hd : (c0 :: cs0).dropWhile (· ≠ '<') = [] := by
      rw [List.dropWhile_eq_nil_iff]
      intro a ha
      simp [h a ha]
    rw [ht, hd, tokenizeHtml_nil]

/-- A markup-free string distills to the empty digest: it parses to pure text,
in which `_mark_salient_nodes` selects nothing. -/
theorem distill_on_markup_free (s : String) (h : ∀ c ∈ s.data, c ≠ '<') :
    distill_html s = "" := by
  by_cases hnil : s.data = []
  · cases s with
    | mk d =>
      simp only at hnil
      rw [hnil]
      rfl
  · unfold distill_html distillHtmlWith parseHtml
    rw [tokenizeHtml_text s.data s.data.length hnil h]
    rfl

/-- C9 corrected, part 1 (counterexample to idempotence): distilling
`<input name="a">` yields the line `input[name=a] name="a"`, but distilling
that output again yields the empty digest — `distill_html` composed with
itself is not `distill_html`. -/
theorem distill_not_idempotent :
    distill_html "<input name=\"a\">" = "input[name=a] name=\"a\""
    ∧ distill_html (distill_html "<input name=\"a\">")
        ≠ distill_html "<input name=\"a\">" := by
  constructor <;> decide

/-- C9 amended: `distill_html` is a pure function (two runs on the same input
agree), and re-running it on its own output selects no salient node at all —
the digest of a markup-free digest is empty, not the digest itself. -/
theorem distill_deterministic_and_second_run_empty (h : String) :
    distill_html h = distill_html h
    ∧ ((distill_html h).data.all (fun c => c ≠ '<') = true →
        distill_html (distill_html h) = "") := by
  refine ⟨rfl, fun hall => ?_⟩
  apply distill_on_markup_free
  intro c hc
  have := List.all_eq_true.mp hall c hc
  simpa using this

theorem distill_deterministic_and_second_run_empty_witness :
    (distill_html "<input name=\"a\">").data.all (fun c => c ≠ '<') = true
    ∧ distill_html (distill_html "<input name=\"a\">") = "" :=
  ⟨by decide,
   (distill_deterministic_and_second_run_empty "<input name=\"a\">").2 (by decide)⟩

theorem standalone_apis_shape_and_destination_witness :
    (recordStandaloneApi initScanState "http://app.test/x" authProbeResp).discovered_apis
      = [mkStandaloneApi 1 "http://app.test/x" authProbeResp]
    ∧ (recordStandaloneApi initScanState "http://app.test/x" authProbeResp).pages = [] := by
  have h := (standalone_apis_shape_and_destination authWorld authCfg 3).2 initScanState
    "http://app.test/x" authProbeResp
  exact ⟨by rw [h.1]; rfl, h.2.1⟩
